import Mathlib

/-!
# Verification of the daily-checklist conversation engine

Shallow embedding of the checklist conversation state machine of
`bot/checklist.py` and the persistence layer of `bot/db.py`.

The per-chat mutable bag `context.user_data["checklist"]` is a Python dict
from string keys to heterogeneous values; it is embedded as an association
list over `PyVal`.  Handlers become pure functions `Sess → … → StepRes`;
the `ConversationHandler` dispatch table of `build_checklist_handler`
becomes the `step` function; a whole conversation is `run`, which threads
the SQLite table `daily_checklist` (embedded as a list of rows) through
the terminal save.
-/

set_option maxHeartbeats 1000000

/-- A Python value as stored in the `checklist` dict: `None`, an `int`,
a `str`, or the `other_notes` sub-dict (str → str). -/
inductive PyVal where
  | none
  | int (n : Int)
  | str (s : String)
  | dict (m : List (String × String))
deriving DecidableEq, Repr

/-- Python dict lookup `m.get(key)` for an association list. -/
def listGet {α : Type} : List (String × α) → String → Option α
  | [], _ => Option.none
  | (k, v) :: rest, key => if k = key then Option.some v else listGet rest key

/-- Python dict assignment `m[key] = v`: replace in place, else append
(Python dicts preserve insertion order and keep the position of an
updated key). -/
def listSet {α : Type} : List (String × α) → String → α → List (String × α)
  | [], key, v => [(key, v)]
  | (k, w) :: rest, key, v =>
      if k = key then (key, v) :: rest else (k, w) :: listSet rest key v

/-- Truthiness of a `PyVal`, mirroring Python `bool(x)`:
`None` and `0` and `""` and `{}` are falsy. -/
def pyTruthy : PyVal → Bool
  | .none => false
  | .int n => n != 0
  | .str s => s != ""
  | .dict m => !m.isEmpty

/-- Digit tail of a Python `int()` literal: digits optionally separated by
single underscores (no trailing or doubled underscore), accumulating into
`acc`.  Restricted to ASCII digits (the Lean `Char.isDigit`); the source
relies on CPython `int(str)` which additionally accepts Unicode digits,
never produced by this bot's keyboards. -/
def pyDigitGo : Nat → List Char → Option Nat
  | acc, [] => Option.some acc
  | acc, '_' :: cs =>
      match cs with
      | [] => Option.none
      | c :: cs' =>
          if c.isDigit then pyDigitGo (10 * acc + (c.toNat - 48)) cs' else Option.none
  | acc, c :: cs =>
      if c.isDigit then pyDigitGo (10 * acc + (c.toNat - 48)) cs else Option.none

/-- A nonempty run of digits (with optional interior underscores). -/
def pyDigitPart : List Char → Option Nat
  | [] => Option.none
  | c :: cs => if c.isDigit then pyDigitGo (c.toNat - 48) cs else Option.none

/-- CPython `int(s)` on an already-stripped string: optional sign followed
by a digit part; `None` models the raised `ValueError`. -/
def parsePyInt (s : String) : Option Int :=
  match s.data with
  | '+' :: cs => (pyDigitPart cs).map (fun n => (n : Int))
  | '-' :: cs => (pyDigitPart cs).map (fun n => -(n : Int))
  | cs => (pyDigitPart cs).map (fun n => (n : Int))

/-- Python `str.capitalize()`: first character upper-cased, the rest
lower-cased. -/
def pyCapitalize (s : String) : String :=
  match s.data with
  | [] => ""
  | c :: rest => String.mk (c.toUpper :: rest.map Char.toLower)

/-- Python whitespace for `str.strip()` (ASCII subset). -/
def isPySpace (c : Char) : Bool :=
  c == ' ' || c == '\t' || c == '\n' || c == '\r' || c == '\x0b' || c == '\x0c'

/-- Python `str.strip()`: drop leading and trailing whitespace. -/
def pyStrip (s : String) : String :=
  String.mk (((s.data.dropWhile isPySpace).reverse.dropWhile isPySpace).reverse)

/-- The conversation states of `checklist.py` (`range(15)`). -/
inductive ChatState where
  | ELECTRONICS_OFF
  | NASAL_RINSE
  | NASAL_STRIPS
  | MOUTH_TAPING
  | SAUNA
  | DIAPHRAGM_WORK
  | HEAVY_SCREEN
  | TRAINING
  | LAST_MEAL_TIME
  | CAFFEINE_CUTOFF
  | HYDRATION
  | SUPPLEMENTS
  | MEDITATION
  | MEDITATION_MINUTES
  | WAITING_OTHER_TEXT
deriving DecidableEq, Repr

/-- One inline keyboard button: display label and `callback_data`. -/
structure Btn where
  label : String
  cb : String
deriving DecidableEq, Repr

/-- An `InlineKeyboardMarkup`: rows of buttons. -/
abbrev KB := List (List Btn)

def YES_NO_KB : KB :=
  [[⟨"Yes", "1"⟩, ⟨"No", "0"⟩, ⟨"Other", "other"⟩]]

def HYDRATION_KB : KB :=
  [[⟨"Good", "good"⟩, ⟨"Poor", "poor"⟩]]

def TRAINING_KB : KB :=
  [[⟨"No training", "none"⟩],
   [⟨"Strength", "strength"⟩, ⟨"Cardio", "cardio"⟩],
   [⟨"Zone 2", "zone2"⟩, ⟨"Sport", "sport"⟩],
   [⟨"Other", "other"⟩]]

def SUPPLEMENTS_KB : KB :=
  [[⟨"None", "none"⟩]]

def SKIP_KB : KB :=
  [[⟨"Skip", "skip"⟩]]

/-- An outgoing message: text plus optional inline keyboard. -/
structure Msg where
  text : String
  kb : Option KB
deriving DecidableEq, Repr

/-- The `other_pending` bag stored by `_handle_yn` when the user picked
`Other`: which question, and what state/prompt/keyboard to resume with. -/
structure OtherPending where
  key : String
  next_q : String
  next_state : ChatState
  next_kb : Option KB
deriving DecidableEq, Repr

/-- An ephemeral conversation session: the `ConversationHandler` state plus
the parts of `context.user_data` the checklist uses (`checklist`,
`checklist_date`, `other_pending`). -/
structure Sess where
  state : ChatState
  data : List (String × PyVal)
  pending : Option OtherPending
  day : String
deriving DecidableEq, Repr

/-- One user action routed to the engine: a callback-query tap carrying its
`callback_data`, a free-text message, or the `/cancel` command. -/
inductive Input where
  | callback (d : String)
  | message (t : String)
  | cancel
deriving DecidableEq, Repr

/-- Result of one handler invocation: continue in a (possibly identical)
state emitting a message; ignore the update (no handler registered for it
in the current state); end the conversation via `/cancel`; end the
conversation saving the completed record; or raise an uncaught exception
(`int(...)` `ValueError`, `dict.pop` `KeyError`). -/
inductive StepRes where
  | next (s : Sess) (m : Msg)
  | noop
  | fin (m : Msg)
  | save (r : List (String × PyVal)) (msgs : List Msg)
  | crash
deriving DecidableEq, Repr

/-- The `other_notes` sub-dict of the checklist data (empty if absent),
as read by `waiting_other_text` / `_format_summary`. -/
def noteDict (d : List (String × PyVal)) : List (String × String) :=
  match listGet d "other_notes" with
  | Option.some (.dict m) => m
  | _ => []

/-- Lookup of one question's override note. -/
def noteGet (d : List (String × PyVal)) (k : String) : Option String :=
  listGet (noteDict d) k

/-- `_yn` of `checklist.py`: render a boolean-ish field for the summary. -/
def ynStr (val : PyVal) (notes : List (String × String)) (key : String) : String :=
  if val = .none ∧ notes ≠ [] ∧ (listGet notes key).isSome then
    "Other: " ++ (listGet notes key).getD ""
  else if val = .none then "-"
  else if pyTruthy val then "Yes" else "No"

/-- Python `str(x)` for the values interpolated into the summary. -/
def pyShow : PyVal → String
  | .none => "None"
  | .int n => toString n
  | .str s => s
  | .dict _ => ""

/-- `data.get(k) or dflt` as used in `_format_summary`. -/
def pyOr (v : Option PyVal) (dflt : String) : String :=
  match v with
  | Option.some w => if pyTruthy w then pyShow w else dflt
  | Option.none => dflt

/-- `_format_summary` of `checklist.py`. -/
def formatSummary (day : String) (d : List (String × PyVal)) : String :=
  let notes := noteDict d
  let trainingLabel := pyOr (listGet d "training_type") "None"
  let meal := pyOr (listGet d "last_meal_time") "-"
  let caffeine := pyOr (listGet d "caffeine_cutoff") "-"
  let hydra := pyCapitalize (pyOr (listGet d "hydration") "-")
  let supps := pyOr (listGet d "supplements") "None"
  let medMin :=
    match listGet d "meditation_minutes" with
    | Option.some v => if pyTruthy v then " (" ++ pyShow v ++ " min)" else ""
    | Option.none => ""
  "*Checklist saved for " ++ day ++ "*\n\n" ++
  "Electronics off 1h before bed: " ++
    ynStr ((listGet d "electronics_off").getD .none) notes "electronics_off" ++ "\n" ++
  "Nasal rinse: " ++ ynStr ((listGet d "nasal_rinse").getD .none) notes "nasal_rinse" ++ "\n" ++
  "Nasal strips: " ++ ynStr ((listGet d "nasal_strips").getD .none) notes "nasal_strips" ++ "\n" ++
  "Mouth taping: " ++ ynStr ((listGet d "mouth_taping").getD .none) notes "mouth_taping" ++ "\n" ++
  "Sauna: " ++ ynStr ((listGet d "sauna").getD .none) notes "sauna" ++ "\n" ++
  "Diaphragm work: " ++ ynStr ((listGet d "diaphragm_work").getD .none) notes "diaphragm_work" ++ "\n" ++
  "Heavy screen day: " ++
    ynStr ((listGet d "heavy_screen_day").getD .none) notes "heavy_screen_day" ++ "\n" ++
  "Training: " ++ trainingLabel ++ "\n" ++
  "Last meal: " ++ meal ++ "\n" ++
  "Last caffeine: " ++ caffeine ++ "\n" ++
  "Hydration: " ++ hydra ++ "\n" ++
  "Supplements: " ++ supps ++ "\n" ++
  "Meditation: " ++ ynStr ((listGet d "meditation").getD .none) notes "meditation" ++ medMin

/-- `checklist_start`: fresh session for `day` plus the opening prompt.
The source does not clear a stale `other_pending`, but one can only have
been consumed or be unreachable, so a fresh session carries `none`. -/
def checklist_start (day : String) : Sess × Msg :=
  ({ state := .ELECTRONICS_OFF, data := [], pending := Option.none, day := day },
   ⟨"Daily checklist for *" ++ day ++
      "*\n\nLet's go through it.\n\nDid you turn off electronics/lights 1h before sleep?",
    Option.some YES_NO_KB⟩)

/-- The fresh session of `checklist_start`. -/
def startSess (day : String) : Sess := (checklist_start day).1

/-- `_handle_yn`: shared handler for the seven boolean questions.
`Other` stores the resumption bag and defers to `WAITING_OTHER_TEXT`;
any other callback data goes through `int(query.data)` (a `ValueError`
on non-integer data is a crash) and advances. -/
def handle_yn (s : Sess) (key next_q : String) (next_state : ChatState)
    (next_kb : Option KB) (d : String) : StepRes :=
  if d = "other" then
    .next { s with state := .WAITING_OTHER_TEXT,
                   pending := Option.some ⟨key, next_q, next_state, next_kb⟩ }
      ⟨"Type your note for this question:", Option.none⟩
  else
    match parsePyInt d with
    | Option.none => .crash
    | Option.some n =>
        .next { s with state := next_state, data := listSet s.data key (.int n) }
          ⟨(if d = "1" then "Yes" else "No") ++ " — got it.\n\n" ++ next_q,
           Option.some (next_kb.getD YES_NO_KB)⟩

/-- `waiting_other_text`: free text after `Other` on a yes/no question.
Stores the stripped text into `other_notes[key]`, nulls the boolean field,
pops the pending bag and resumes at the deferred state/prompt/keyboard.
A missing `other_pending` would be a `KeyError` (crash). -/
def waiting_other_text (s : Sess) (t0 : String) : StepRes :=
  match s.pending with
  | Option.none => .crash
  | Option.some p =>
      let t := (pyStrip t0)
      let d1 := listSet s.data p.key .none
      let notes := listSet (noteDict d1) p.key t
      let d2 := listSet d1 "other_notes" (.dict notes)
      .next { s with state := p.next_state, data := d2, pending := Option.none }
        ⟨"\"" ++ t ++ "\" — got it.\n\n" ++ p.next_q,
         Option.some (p.next_kb.getD YES_NO_KB)⟩

/-- Tail shared by `training` and `training_text`: query the meal-time
side log (`get_last_meal_time`) and either skip straight to
`CAFFEINE_CUTOFF` with the logged value, or ask for the last meal. -/
def afterTraining (ml : String → Option String) (s : Sess) (label : String) : StepRes :=
  match ml s.day with
  | Option.some v =>
      .next { s with state := .CAFFEINE_CUTOFF,
                     data := listSet s.data "last_meal_time" (.str v) }
        ⟨label ++ " — got it.\n\nLast meal already logged at " ++ v ++
           ".\n\nWhat time was your last caffeine? (HH:MM or type 'skip')",
         Option.some SKIP_KB⟩
  | Option.none =>
      .next { s with state := .LAST_MEAL_TIME }
        ⟨label ++ " — got it.\n\nWhat time was your last meal? (HH:MM or type 'skip')",
         Option.some SKIP_KB⟩

/-- `training`: callback branch of state 8. -/
def training (ml : String → Option String) (s : Sess) (d : String) : StepRes :=
  if d = "none" then
    afterTraining ml { s with data := listSet s.data "training_type" .none } "No training"
  else if d = "other" then
    .next { s with state := .TRAINING } ⟨"What type of training? (type it)", Option.none⟩
  else
    afterTraining ml { s with data := listSet s.data "training_type" (.str d) }
      (pyCapitalize d)

/-- `training_text`: free-text branch of state 8. -/
def training_text (ml : String → Option String) (s : Sess) (t : String) : StepRes :=
  afterTraining ml { s with data := listSet s.data "training_type" (.str (pyStrip t)) } (pyStrip t)

/-- `last_meal_time`: state 9.  `text?` is `none` for a callback tap (any
callback is the Skip button: store `None`) and `some t` for free text
(stored stripped, verbatim, unvalidated). -/
def last_meal_time (s : Sess) (text? : Option String) : StepRes :=
  match text? with
  | Option.none =>
      .next { s with state := .CAFFEINE_CUTOFF,
                     data := listSet s.data "last_meal_time" .none }
        ⟨"Skipped.\n\nWhat time was your last caffeine? (HH:MM or type 'skip')",
         Option.some SKIP_KB⟩
  | Option.some t =>
      .next { s with state := .CAFFEINE_CUTOFF,
                     data := listSet s.data "last_meal_time" (.str (pyStrip t)) }
        ⟨(pyStrip t) ++ " — got it.\n\nWhat time was your last caffeine? (HH:MM or type 'skip')",
         Option.some SKIP_KB⟩

/-- `caffeine_cutoff`: state 10, same shape as state 9. -/
def caffeine_cutoff (s : Sess) (text? : Option String) : StepRes :=
  match text? with
  | Option.none =>
      .next { s with state := .HYDRATION,
                     data := listSet s.data "caffeine_cutoff" .none }
        ⟨"Skipped.\n\nHow was your hydration today?", Option.some HYDRATION_KB⟩
  | Option.some t =>
      .next { s with state := .HYDRATION,
                     data := listSet s.data "caffeine_cutoff" (.str (pyStrip t)) }
        ⟨(pyStrip t) ++ " — got it.\n\nHow was your hydration today?", Option.some HYDRATION_KB⟩

/-- `hydration`: state 11, stores the callback data verbatim. -/
def hydration (s : Sess) (d : String) : StepRes :=
  .next { s with state := .SUPPLEMENTS, data := listSet s.data "hydration" (.str d) }
    ⟨pyCapitalize d ++ " — got it.\n\nAny supplements? Type what you took, or tap None.",
     Option.some SUPPLEMENTS_KB⟩

/-- `supplements_btn`: any callback at state 12 is the None button. -/
def supplements_btn (s : Sess) : StepRes :=
  .next { s with state := .MEDITATION, data := listSet s.data "supplements" .none }
    ⟨"No supplements.\n\nDid you meditate or do breathwork?", Option.some YES_NO_KB⟩

/-- `supplements_text`: free-text supplements at state 12. -/
def supplements_text (s : Sess) (t : String) : StepRes :=
  .next { s with state := .MEDITATION, data := listSet s.data "supplements" (.str (pyStrip t)) }
    ⟨(pyStrip t) ++ " — got it.\n\nDid you meditate or do breathwork?", Option.some YES_NO_KB⟩

/-- `meditation`: state 13.  `int(query.data)` crashes on non-integer
callback data (notably the `Other` button of the keyboard actually shown);
`1` moves on to minutes, anything else stores `meditation_minutes = None`
and saves. -/
def meditation (s : Sess) (d : String) : StepRes :=
  match parsePyInt d with
  | Option.none => .crash
  | Option.some v =>
      let s' := { s with data := listSet s.data "meditation" (.int v) }
      if v = 1 then
        .next { s' with state := .MEDITATION_MINUTES } ⟨"How many minutes?", Option.none⟩
      else
        let r := listSet s'.data "meditation_minutes" .none
        .save r [⟨formatSummary s.day r, Option.none⟩]

/-- `meditation_minutes`: state 14.  `int(text)` failure re-emits the same
state with an error prompt without touching the session; success stores
the parsed integer and saves. -/
def meditation_minutes (s : Sess) (t : String) : StepRes :=
  match parsePyInt (pyStrip t) with
  | Option.none => .next s ⟨"Please enter a number (minutes).", Option.none⟩
  | Option.some n =>
      let r := listSet s.data "meditation_minutes" (.int n)
      .save r [⟨"Got it.", Option.none⟩, ⟨formatSummary s.day r, Option.none⟩]

/-- The `/cancel` acknowledgment. -/
def cancelMsg : Msg := ⟨"Checklist cancelled.", Option.none⟩

/-- The dispatch table of `build_checklist_handler`: which handler serves
(current state, update kind).  `/cancel` is the fallback at every state;
updates with no registered handler for the current state are ignored. -/
def step (ml : String → Option String) (s : Sess) (i : Input) : StepRes :=
  match i with
  | .cancel => .fin cancelMsg
  | .callback d =>
      match s.state with
      | .ELECTRONICS_OFF =>
          handle_yn s "electronics_off" "Did you rinse your nose?" .NASAL_RINSE Option.none d
      | .NASAL_RINSE =>
          handle_yn s "nasal_rinse" "Did you use nasal strips?" .NASAL_STRIPS Option.none d
      | .NASAL_STRIPS =>
          handle_yn s "nasal_strips" "Mouth taping?" .MOUTH_TAPING Option.none d
      | .MOUTH_TAPING =>
          handle_yn s "mouth_taping" "Did you do sauna?" .SAUNA Option.none d
      | .SAUNA =>
          handle_yn s "sauna" "Did you do diaphragm work?" .DIAPHRAGM_WORK Option.none d
      | .DIAPHRAGM_WORK =>
          handle_yn s "diaphragm_work" "Was it a heavy screen/social media day?"
            .HEAVY_SCREEN Option.none d
      | .HEAVY_SCREEN =>
          handle_yn s "heavy_screen_day" "Training?" .TRAINING (Option.some TRAINING_KB) d
      | .TRAINING => training ml s d
      | .LAST_MEAL_TIME => last_meal_time s Option.none
      | .CAFFEINE_CUTOFF => caffeine_cutoff s Option.none
      | .HYDRATION => hydration s d
      | .SUPPLEMENTS => supplements_btn s
      | .MEDITATION => meditation s d
      | .MEDITATION_MINUTES => .noop
      | .WAITING_OTHER_TEXT => .noop
  | .message t =>
      match s.state with
      | .TRAINING => training_text ml s t
      | .LAST_MEAL_TIME => last_meal_time s (Option.some t)
      | .CAFFEINE_CUTOFF => caffeine_cutoff s (Option.some t)
      | .SUPPLEMENTS => supplements_text s t
      | .MEDITATION_MINUTES => meditation_minutes s t
      | .WAITING_OTHER_TEXT => waiting_other_text s t
      | _ => .noop

/-- One row of the `daily_checklist` table.  A Python `None` and an absent
dict key both surface as SQL `NULL` (`PyVal.none`); `other_notes` holds
the JSON-decoded content of the serialized column (`PyVal.none` = NULL). -/
structure Row where
  date : String
  electronics_off : PyVal
  nasal_rinse : PyVal
  nasal_strips : PyVal
  mouth_taping : PyVal
  sauna : PyVal
  diaphragm_work : PyVal
  heavy_screen_day : PyVal
  meditation : PyVal
  meditation_minutes : PyVal
  training_type : PyVal
  last_meal_time : PyVal
  caffeine_cutoff : PyVal
  hydration : PyVal
  supplements : PyVal
  other_notes : PyVal
deriving DecidableEq, Repr

/-- `data.get(k)` as a column value: absent keys become NULL. -/
def pyGet (d : List (String × PyVal)) (k : String) : PyVal :=
  (listGet d k).getD .none

/-- The row bound by `save_checklist`'s INSERT: one `data.get` per column,
and `json.dumps(other_notes) if other_notes else None` for the notes
column (the JSON string is represented by its decoded value). -/
def toRow (day : String) (d : List (String × PyVal)) : Row :=
  { date := day
    electronics_off := pyGet d "electronics_off"
    nasal_rinse := pyGet d "nasal_rinse"
    nasal_strips := pyGet d "nasal_strips"
    mouth_taping := pyGet d "mouth_taping"
    sauna := pyGet d "sauna"
    diaphragm_work := pyGet d "diaphragm_work"
    heavy_screen_day := pyGet d "heavy_screen_day"
    meditation := pyGet d "meditation"
    meditation_minutes := pyGet d "meditation_minutes"
    training_type := pyGet d "training_type"
    last_meal_time := pyGet d "last_meal_time"
    caffeine_cutoff := pyGet d "caffeine_cutoff"
    hydration := pyGet d "hydration"
    supplements := pyGet d "supplements"
    other_notes :=
      if pyTruthy (pyGet d "other_notes") then pyGet d "other_notes" else .none }

/-- The `daily_checklist` table. -/
abbrev DB := List Row

/-- `save_checklist`: `INSERT OR REPLACE` keyed by the UNIQUE `date`
column — the conflicting row is deleted and the new row inserted. -/
def save_checklist (db : DB) (day : String) (d : List (String × PyVal)) : DB :=
  db.filter (fun r => !(r.date == day)) ++ [toRow day d]

/-- Point lookup of the row for a day. -/
def dbGet (db : DB) (day : String) : Option Row :=
  db.find? (fun r => r.date == day)

/-- Outcome of feeding a whole input list to a conversation. -/
inductive RunRes where
  | inProgress (s : Sess)
  | cancelled
  | saved (r : List (String × PyVal))
  | crashed
deriving DecidableEq, Repr

/-- Drive the conversation over a list of inputs, threading the store;
the terminal save performs `save_checklist` for the session's day. -/
def run (ml : String → Option String) (db : DB) (s : Sess) :
    List Input → DB × RunRes
  | [] => (db, .inProgress s)
  | i :: rest =>
      match step ml s i with
      | .next s' _ => run ml db s' rest
      | .noop => run ml db s rest
      | .fin _ => (db, .cancelled)
      | .save r _ => (save_checklist db s.day r, .saved r)
      | .crash => (db, .crashed)

/-- The empty meal-time side log. -/
def ml0 : String → Option String := fun _ => Option.none

/-- The end-to-end demo scenario of the spec, up to and including the
Meditation "Yes" tap (so the session sits at `MEDITATION_MINUTES`). -/
def demoToMM : List Input :=
  [.callback "0", .callback "0", .callback "0", .callback "0",
   .callback "0", .callback "0", .callback "0",
   .callback "none", .callback "skip", .message "22:30",
   .callback "poor", .message "Magnesium", .callback "1"]

/-- The full demo scenario: ends with minutes "10" and a terminal save. -/
def demoFull : List Input := demoToMM ++ [.message "10"]

/-- The prefix of the demo scenario reaching the `SUPPLEMENTS` state. -/
def demoToSupp : List Input :=
  [.callback "0", .callback "0", .callback "0", .callback "0",
   .callback "0", .callback "0", .callback "0",
   .callback "none", .callback "skip", .message "22:30", .callback "poor"]

/-- The session an input list leaves in progress (fallback: the initial
session, never hit for the lists below). -/
def sessAfter (inps : List Input) : Sess :=
  match run ml0 [] (startSess "2025-06-01") inps with
  | (_, .inProgress s) => s
  | _ => startSess "2025-06-01"

/-- A reachable session sitting at `SUPPLEMENTS`. -/
def sessSupp : Sess := sessAfter demoToSupp

/-- A reachable session sitting at `MEDITATION`. -/
def sessMed : Sess := sessAfter (demoToSupp ++ [.message "Magnesium"])

/-- A reachable session sitting at `MEDITATION_MINUTES`. -/
def sessMM : Sess := sessAfter demoToMM

/-- A reachable session sitting at `LAST_MEAL_TIME` (no side-log entry). -/
def sessLM : Sess :=
  sessAfter [.callback "0", .callback "0", .callback "0", .callback "0",
             .callback "0", .callback "0", .callback "0", .callback "none"]

/-- A reachable session sitting at `CAFFEINE_CUTOFF`. -/
def sessCC : Sess :=
  sessAfter [.callback "0", .callback "0", .callback "0", .callback "0",
             .callback "0", .callback "0", .callback "0", .callback "none",
             .callback "skip"]

/-- Invariant for runs that never use the `Other` button on a boolean
question: not inside the override detour, and no `other_notes` key. -/
def NInv (s : Sess) : Prop :=
  s.state ≠ .WAITING_OTHER_TEXT ∧ listGet s.data "other_notes" = Option.none

/-- Is a step result a terminal save? -/
def isSave : StepRes → Bool
  | .save _ _ => true
  | _ => false

/-- The record of a terminal save (junk otherwise). -/
def savedRec : StepRes → List (String × PyVal)
  | .save r _ => r
  | _ => []

/-- Does a keyboard offer a button with the given callback data? -/
def kbHas (kb : KB) (d : String) : Bool :=
  kb.any (fun row => row.any (fun b => b.cb == d))

/-- The session of a `.next` result. -/
def nextSess : StepRes → Option Sess
  | .next s _ => Option.some s
  | _ => Option.none

/-- The message of a `.next` result. -/
def nextMsg : StepRes → Option Msg
  | .next _ m => Option.some m
  | _ => Option.none

/-- The keys of the seven boolean questions, in conversation order. -/
def key7 : Nat → String
  | 0 => "electronics_off"
  | 1 => "nasal_rinse"
  | 2 => "nasal_strips"
  | 3 => "mouth_taping"
  | 4 => "sauna"
  | 5 => "diaphragm_work"
  | 6 => "heavy_screen_day"
  | _ => ""

/-- The state asking boolean question `j` (and `TRAINING` for `j ≥ 7`). -/
def stateOf7 : Nat → ChatState
  | 0 => .ELECTRONICS_OFF
  | 1 => .NASAL_RINSE
  | 2 => .NASAL_STRIPS
  | 3 => .MOUTH_TAPING
  | 4 => .SAUNA
  | 5 => .DIAPHRAGM_WORK
  | 6 => .HEAVY_SCREEN
  | _ => .TRAINING

/-- How many boolean questions are settled once the conversation sits in a
given (non-override) state. -/
def progress : ChatState → Nat
  | .ELECTRONICS_OFF => 0
  | .NASAL_RINSE => 1
  | .NASAL_STRIPS => 2
  | .MOUTH_TAPING => 3
  | .SAUNA => 4
  | .DIAPHRAGM_WORK => 5
  | .HEAVY_SCREEN => 6
  | _ => 7

/-- Boolean question `k` is settled in `d`: either answered 1/0 with no
override note, or nulled with its note recorded. -/
def Decided (d : List (String × PyVal)) (k : String) : Prop :=
  ((listGet d k = Option.some (.int 1) ∨ listGet d k = Option.some (.int 0)) ∧
     noteGet d k = Option.none) ∨
  (listGet d k = Option.some .none ∧ (noteGet d k).isSome)

/-- Boolean question `k` has not been reached: no field, no note. -/
def Untouched (d : List (String × PyVal)) (k : String) : Prop :=
  listGet d k = Option.none ∧ noteGet d k = Option.none

/-- The first `j` boolean questions are settled, the rest untouched. -/
def InvAt (d : List (String × PyVal)) (j : Nat) : Prop :=
  (∀ i, i < j → i < 7 → Decided d (key7 i)) ∧
  (∀ i, j ≤ i → i < 7 → Untouched d (key7 i))

/-- The reachability invariant of a session: outside the override detour,
boolean progress matches the state; inside it, the pending bag points at
the question being overridden and resumes at its successor state. -/
def SessInv (s : Sess) : Prop :=
  if s.state = .WAITING_OTHER_TEXT then
    ∃ p j, s.pending = Option.some p ∧ j < 7 ∧ p.key = key7 j ∧
      p.next_state = stateOf7 (j + 1) ∧ InvAt s.data j
  else
    InvAt s.data (progress s.state)

/-- All seven boolean questions are settled in a record. -/
def RecordInv (d : List (String × PyVal)) : Prop :=
  ∀ i, i < 7 → Decided d (key7 i)

/-- The boolean column of a row by question index. -/
def rowBool (r : Row) : Nat → PyVal
  | 0 => r.electronics_off
  | 1 => r.nasal_rinse
  | 2 => r.nasal_strips
  | 3 => r.mouth_taping
  | 4 => r.sauna
  | 5 => r.diaphragm_work
  | 6 => r.heavy_screen_day
  | _ => .none

/-- Does the persisted `other_notes` column hold a note for `k`? -/
def rowNoteHas (r : Row) (k : String) : Bool :=
  match r.other_notes with
  | .dict m => (listGet m k).isSome
  | _ => false

/-- The claimed per-field record invariant, read off a persisted row:
the column is 1 or 0 with no note, or NULL with a note. -/
def RowDecided (r : Row) (i : Nat) : Prop :=
  ((rowBool r i = .int 1 ∨ rowBool r i = .int 0) ∧ rowNoteHas r (key7 i) = false) ∨
  (rowBool r i = .none ∧ rowNoteHas r (key7 i) = true)

/-- The callback data offered by the keyboard shown at each state (what a
stock client can send back; free text can always be typed). -/
def offered : ChatState → List String
  | .ELECTRONICS_OFF => ["1", "0", "other"]
  | .NASAL_RINSE => ["1", "0", "other"]
  | .NASAL_STRIPS => ["1", "0", "other"]
  | .MOUTH_TAPING => ["1", "0", "other"]
  | .SAUNA => ["1", "0", "other"]
  | .DIAPHRAGM_WORK => ["1", "0", "other"]
  | .HEAVY_SCREEN => ["1", "0", "other"]
  | .TRAINING => ["none", "strength", "cardio", "zone2", "sport", "other"]
  | .LAST_MEAL_TIME => ["skip"]
  | .CAFFEINE_CUTOFF => ["skip"]
  | .HYDRATION => ["good", "poor"]
  | .SUPPLEMENTS => ["none"]
  | .MEDITATION => ["1", "0", "other"]
  | .MEDITATION_MINUTES => []
  | .WAITING_OTHER_TEXT => []

/-- Is one input legal at a state: any message or `/cancel`, or a callback
the current keyboard offers. -/
def legalInput (st : ChatState) (i : Input) : Bool :=
  match i with
  | .cancel => true
  | .message _ => true
  | .callback d => (offered st).contains d

/-- Every input of the list is legal at the state it is received in. -/
def legalRun (ml : String → Option String) (s : Sess) : List Input → Bool
  | [] => true
  | i :: rest =>
      legalInput s.state i &&
      match step ml s i with
      | .next s' _ => legalRun ml s' rest
      | .noop => legalRun ml s rest
      | _ => true

/-- Is the state one of the seven boolean-question states? -/
def isBool7 : ChatState → Bool
  | .ELECTRONICS_OFF => true
  | .NASAL_RINSE => true
  | .NASAL_STRIPS => true
  | .MOUTH_TAPING => true
  | .SAUNA => true
  | .DIAPHRAGM_WORK => true
  | .HEAVY_SCREEN => true
  | _ => false

/-- No boolean question of the run is answered via the `Other` button. -/
def noOtherRun (ml : String → Option String) (s : Sess) : List Input → Bool
  | [] => true
  | i :: rest =>
      !(isBool7 s.state && i == .callback "other") &&
      match step ml s i with
      | .next s' _ => noOtherRun ml s' rest
      | .noop => noOtherRun ml s rest
      | _ => true

/-- The `next_q`/`next_state`/`next_kb` data of the seven boolean-question
handlers (`electronics_off` … `heavy_screen` of `checklist.py`). -/
def ynSpec : ChatState → Option (String × String × ChatState × Option KB)
  | .ELECTRONICS_OFF =>
      Option.some ("electronics_off", "Did you rinse your nose?", .NASAL_RINSE, Option.none)
  | .NASAL_RINSE =>
      Option.some ("nasal_rinse", "Did you use nasal strips?", .NASAL_STRIPS, Option.none)
  | .NASAL_STRIPS =>
      Option.some ("nasal_strips", "Mouth taping?", .MOUTH_TAPING, Option.none)
  | .MOUTH_TAPING =>
      Option.some ("mouth_taping", "Did you do sauna?", .SAUNA, Option.none)
  | .SAUNA =>
      Option.some ("sauna", "Did you do diaphragm work?", .DIAPHRAGM_WORK, Option.none)
  | .DIAPHRAGM_WORK =>
      Option.some ("diaphragm_work", "Was it a heavy screen/social media day?",
        .HEAVY_SCREEN, Option.none)
  | .HEAVY_SCREEN =>
      Option.some ("heavy_screen_day", "Training?", .TRAINING, Option.some TRAINING_KB)
  | _ => Option.none

theorem listGet_listSet_self {α : Type} (m : List (String × α)) (k : String) (v : α) :
    listGet (listSet m k v) k = Option.some v := by
  induction m with
  | nil => simp [listSet, listGet]
  | cons p rest ih =>
      obtain ⟨k', w⟩ := p
      by_cases h : k' = k
      · subst h; simp [listSet, listGet]
      · simp [listSet, listGet, h, ih]

theorem listGet_listSet_ne {α : Type} (m : List (String × α)) (k k' : String) (v : α)
    (h : k ≠ k') : listGet (listSet m k v) k' = listGet m k' := by
  induction m with
  | nil => simp [listSet, listGet, h]
  | cons p rest ih =>
      obtain ⟨k2, w⟩ := p
      by_cases h2 : k2 = k
      · subst h2; simp [listSet, listGet, h]
      · simp [listSet, listGet, h2, ih]

theorem noteDict_listSet_ne (d : List (String × PyVal)) (k : String) (v : PyVal)
    (h : k ≠ "other_notes") : noteDict (listSet d k v) = noteDict d := by
  unfold noteDict
  rw [listGet_listSet_ne _ _ _ _ h]

theorem noteGet_listSet_ne (d : List (String × PyVal)) (k k' : String) (v : PyVal)
    (h : k ≠ "other_notes") : noteGet (listSet d k v) k' = noteGet d k' := by
  unfold noteGet
  rw [noteDict_listSet_ne _ _ _ h]

theorem key7_inj {i j : Nat} (hi : i < 7) (hj : j < 7) (h : key7 i = key7 j) : i = j := by
  interval_cases i <;> interval_cases j <;> revert h <;> decide

theorem key7_ne_misc {i : Nat} (hi : i < 7) :
    key7 i ≠ "other_notes" ∧ key7 i ≠ "training_type" ∧ key7 i ≠ "last_meal_time" ∧
    key7 i ≠ "caffeine_cutoff" ∧ key7 i ≠ "hydration" ∧ key7 i ≠ "supplements" ∧
    key7 i ≠ "meditation" ∧ key7 i ≠ "meditation_minutes" := by
  interval_cases i <;> decide

theorem stateOf7_ne_waiting (n : Nat) : stateOf7 n ≠ .WAITING_OTHER_TEXT := by
  match n with
  | 0 | 1 | 2 | 3 | 4 | 5 | 6 => decide
  | m + 7 => exact fun h => ChatState.noConfusion h

theorem progress_stateOf7 {j : Nat} (hj : j < 7) : progress (stateOf7 j) = j := by
  interval_cases j <;> rfl

theorem progress_stateOf7_succ {j : Nat} (hj : j < 7) :
    progress (stateOf7 (j + 1)) = j + 1 := by
  interval_cases j <;> rfl

theorem sessInv_of_not_waiting {s : Sess} (h : s.state ≠ .WAITING_OTHER_TEXT)
    (h2 : InvAt s.data (progress s.state)) : SessInv s := by
  unfold SessInv
  rw [if_neg h]
  exact h2

theorem sessInv_elim_not_waiting {s : Sess} (h : s.state ≠ .WAITING_OTHER_TEXT)
    (hInv : SessInv s) : InvAt s.data (progress s.state) := by
  unfold SessInv at hInv
  rwa [if_neg h] at hInv

theorem sessInv_elim_waiting {s : Sess} (h : s.state = .WAITING_OTHER_TEXT)
    (hInv : SessInv s) :
    ∃ p j, s.pending = Option.some p ∧ j < 7 ∧ p.key = key7 j ∧
      p.next_state = stateOf7 (j + 1) ∧ InvAt s.data j := by
  unfold SessInv at hInv
  rwa [if_pos h] at hInv

theorem sessInv_of_waiting {s : Sess} (h : s.state = .WAITING_OTHER_TEXT)
    (hw : ∃ p j, s.pending = Option.some p ∧ j < 7 ∧ p.key = key7 j ∧
      p.next_state = stateOf7 (j + 1) ∧ InvAt s.data j) : SessInv s := by
  unfold SessInv
  rwa [if_pos h]

theorem Decided_listSet_ne (d : List (String × PyVal)) (k k' : String) (v : PyVal)
    (hk : k ≠ k') (hn : k ≠ "other_notes") (h : Decided d k') :
    Decided (listSet d k v) k' := by
  unfold Decided at *
  rw [listGet_listSet_ne _ _ _ _ hk, noteGet_listSet_ne _ _ _ _ hn]
  exact h

theorem Untouched_listSet_ne (d : List (String × PyVal)) (k k' : String) (v : PyVal)
    (hk : k ≠ k') (hn : k ≠ "other_notes") (h : Untouched d k') :
    Untouched (listSet d k v) k' := by
  unfold Untouched at *
  rw [listGet_listSet_ne _ _ _ _ hk, noteGet_listSet_ne _ _ _ _ hn]
  exact h

theorem InvAt_listSet_misc (d : List (String × PyVal)) (j : Nat) (k : String) (v : PyVal)
    (hk : ∀ i, i < 7 → key7 i ≠ k) (hn : k ≠ "other_notes") (h : InvAt d j) :
    InvAt (listSet d k v) j := by
  obtain ⟨h1, h2⟩ := h
  constructor
  · intro i hi hi7
    exact Decided_listSet_ne d k (key7 i) v (fun hh => hk i hi7 hh.symm) hn (h1 i hi hi7)
  · intro i hji hi
    exact Untouched_listSet_ne d k (key7 i) v (fun hh => (hk i hi) hh.symm) hn (h2 i hji hi)

theorem InvAt_settle (d : List (String × PyVal)) (j : Nat) (hj : j < 7)
    (hIA : InvAt d j) (v : PyVal) (hv : v = .int 1 ∨ v = .int 0) :
    InvAt (listSet d (key7 j) v) (j + 1) := by
  obtain ⟨h1, h2⟩ := hIA
  constructor
  · intro i hi hi7
    by_cases hij : i = j
    · subst hij
      left
      constructor
      · rw [listGet_listSet_self]
        rcases hv with rfl | rfl
        · left; rfl
        · right; rfl
      · rw [noteGet_listSet_ne _ _ _ _ (key7_ne_misc hj).1]
        exact (h2 i le_rfl hi7).2
    · have hilt : i < j := by omega
      exact Decided_listSet_ne d (key7 j) (key7 i) v
        (fun hh => hij (key7_inj hj hi7 hh).symm) (key7_ne_misc hj).1 (h1 i hilt hi7)
  · intro i hji hi7
    have hij : j ≠ i := by omega
    exact Untouched_listSet_ne d (key7 j) (key7 i) v
      (fun hh => hij (key7_inj hj hi7 hh)) (key7_ne_misc hj).1 (h2 i (by omega) hi7)

theorem noteDict_listSet_notes (d : List (String × PyVal)) (m : List (String × String)) :
    noteDict (listSet d "other_notes" (.dict m)) = m := by
  unfold noteDict
  rw [listGet_listSet_self]

theorem InvAt_override (d : List (String × PyVal)) (j : Nat) (hj : j < 7)
    (hIA : InvAt d j) (t : String) :
    InvAt (listSet (listSet d (key7 j) .none) "other_notes"
      (.dict (listSet (noteDict (listSet d (key7 j) .none)) (key7 j) t))) (j + 1) := by
  obtain ⟨h1, h2⟩ := hIA
  have hkn : key7 j ≠ "other_notes" := (key7_ne_misc hj).1
  have hnd1 : noteDict (listSet d (key7 j) .none) = noteDict d :=
    noteDict_listSet_ne d (key7 j) .none hkn
  rw [hnd1]
  set d1 := listSet d (key7 j) .none with hd1
  set d2 := listSet d1 "other_notes" (.dict (listSet (noteDict d) (key7 j) t)) with hd2
  have hget : ∀ k : String, k ≠ "other_notes" →
      listGet d2 k = listGet d1 k := by
    intro k hk
    rw [hd2, listGet_listSet_ne _ _ _ _ (Ne.symm hk)]
  have hnotes : noteDict d2 = listSet (noteDict d) (key7 j) t := by
    rw [hd2]
    exact noteDict_listSet_notes _ _
  constructor
  · intro i hi hi7
    by_cases hij : i = j
    · subst hij
      right
      constructor
      · rw [hget _ (key7_ne_misc hi7).1, hd1, listGet_listSet_self]
      · unfold noteGet
        rw [hnotes, listGet_listSet_self]
        rfl
    · have hilt : i < j := by omega
      have hne : key7 j ≠ key7 i := fun hh => hij (key7_inj hj hi7 hh).symm
      have hD := h1 i hilt hi7
      unfold Decided at hD ⊢
      rw [hget _ (key7_ne_misc hi7).1, hd1, listGet_listSet_ne _ _ _ _ hne]
      unfold noteGet
      rw [hnotes, listGet_listSet_ne _ _ _ _ hne]
      exact hD
  · intro i hji hi7
    have hij : j ≠ i := by omega
    have hne : key7 j ≠ key7 i := fun hh => hij (key7_inj hj hi7 hh)
    have hU := h2 i (by omega) hi7
    unfold Untouched at hU ⊢
    rw [hget _ (key7_ne_misc hi7).1, hd1, listGet_listSet_ne _ _ _ _ hne]
    unfold noteGet
    rw [hnotes, listGet_listSet_ne _ _ _ _ hne]
    exact hU

theorem RecordInv_of_InvAt7 {d : List (String × PyVal)} (h : InvAt d 7) : RecordInv d :=
  fun i hi => h.1 i hi hi

theorem handle_yn_no_save (s : Sess) (k q : String) (st : ChatState) (kb : Option KB)
    (d : String) (r : List (String × PyVal)) (msgs : List Msg) :
    handle_yn s k q st kb d ≠ .save r msgs := by
  unfold handle_yn
  split
  · exact fun h => StepRes.noConfusion h
  · cases parsePyInt d <;> exact fun h => StepRes.noConfusion h

theorem handle_yn_preserve (s : Sess) (j : Nat) (hj : j < 7)
    (hst : s.state = stateOf7 j) (hInv : SessInv s)
    (q : String) (kb : Option KB) (d : String)
    (hd : d = "1" ∨ d = "0" ∨ d = "other") :
    ∀ s' m, handle_yn s (key7 j) q (stateOf7 (j + 1)) kb d = .next s' m → SessInv s' := by
  have hIA : InvAt s.data j := by
    have h := sessInv_elim_not_waiting (hst ▸ stateOf7_ne_waiting j) hInv
    rwa [hst, progress_stateOf7 hj] at h
  intro s' m h
  rcases hd with rfl | rfl | rfl
  · unfold handle_yn at h
    rw [if_neg (by decide : ¬("1" : String) = "other")] at h
    rw [(by decide : parsePyInt "1" = Option.some 1)] at h
    simp only [StepRes.next.injEq] at h
    obtain ⟨rfl, -⟩ := h
    apply sessInv_of_not_waiting (stateOf7_ne_waiting (j + 1))
    show InvAt (listSet s.data (key7 j) (.int 1)) (progress (stateOf7 (j + 1)))
    rw [progress_stateOf7_succ hj]
    exact InvAt_settle s.data j hj hIA _ (Or.inl rfl)
  · unfold handle_yn at h
    rw [if_neg (by decide : ¬("0" : String) = "other")] at h
    rw [(by decide : parsePyInt "0" = Option.some 0)] at h
    simp only [StepRes.next.injEq] at h
    obtain ⟨rfl, -⟩ := h
    apply sessInv_of_not_waiting (stateOf7_ne_waiting (j + 1))
    show InvAt (listSet s.data (key7 j) (.int 0)) (progress (stateOf7 (j + 1)))
    rw [progress_stateOf7_succ hj]
    exact InvAt_settle s.data j hj hIA _ (Or.inr rfl)
  · unfold handle_yn at h
    rw [if_pos rfl] at h
    simp only [StepRes.next.injEq] at h
    obtain ⟨rfl, -⟩ := h
    apply sessInv_of_waiting rfl
    exact ⟨_, j, rfl, hj, rfl, rfl, hIA⟩

theorem waiting_preserve (s : Sess) (hst : s.state = .WAITING_OTHER_TEXT)
    (hInv : SessInv s) (t : String) :
    ∀ s' m, waiting_other_text s t = .next s' m → SessInv s' := by
  obtain ⟨p, j, hp, hj, hkey, hnext, hIA⟩ := sessInv_elim_waiting hst hInv
  intro s' m h
  unfold waiting_other_text at h
  rw [hp] at h
  simp only [StepRes.next.injEq] at h
  obtain ⟨rfl, -⟩ := h
  apply sessInv_of_not_waiting
  · show p.next_state ≠ _
    rw [hnext]
    exact stateOf7_ne_waiting (j + 1)
  · show InvAt (listSet (listSet s.data p.key .none) "other_notes"
        (.dict (listSet (noteDict (listSet s.data p.key .none)) p.key (pyStrip t))))
        (progress p.next_state)
    rw [hnext, progress_stateOf7_succ hj, hkey]
    exact InvAt_override s.data j hj hIA (pyStrip t)

theorem afterTraining_no_save (ml : String → Option String) (s : Sess) (label : String)
    (r : List (String × PyVal)) (msgs : List Msg) :
    afterTraining ml s label ≠ .save r msgs := by
  unfold afterTraining
  split <;> exact fun h => StepRes.noConfusion h

theorem waiting_no_save (s : Sess) (t : String) (r : List (String × PyVal))
    (msgs : List Msg) : waiting_other_text s t ≠ .save r msgs := by
  unfold waiting_other_text
  cases s.pending <;> exact fun h => StepRes.noConfusion h

theorem afterTraining_preserve (ml : String → Option String) (s : Sess) (label : String)
    (h7 : InvAt s.data 7) :
    ∀ s' m, afterTraining ml s label = .next s' m → SessInv s' := by
  intro s' m h
  unfold afterTraining at h
  split at h
  case _ v hml =>
    simp only [StepRes.next.injEq] at h
    obtain ⟨rfl, -⟩ := h
    refine sessInv_of_not_waiting (by simp) ?_
    show InvAt (listSet s.data "last_meal_time" (.str v)) (progress .CAFFEINE_CUTOFF)
    exact InvAt_listSet_misc _ 7 _ _ (fun i hi => (key7_ne_misc hi).2.2.1) (by decide) h7
  case _ hml =>
    simp only [StepRes.next.injEq] at h
    obtain ⟨rfl, -⟩ := h
    exact sessInv_of_not_waiting (by simp) h7

theorem legal_yn (st : ChatState) (hb : offered st = ["1", "0", "other"]) {d : String}
    (h : legalInput st (.callback d) = true) : d = "1" ∨ d = "0" ∨ d = "other" := by
  unfold legalInput at h
  rw [hb] at h
  simpa using h

theorem step_preserve (ml : String → Option String) (s : Sess) (i : Input)
    (hInv : SessInv s) (hleg : legalInput s.state i = true) :
    (∀ s' m, step ml s i = .next s' m → SessInv s') ∧
    (∀ r msgs, step ml s i = .save r msgs → RecordInv r) := by
  obtain ⟨st, dt, pd, dy⟩ := s
  have hkTT : ∀ i, i < 7 → key7 i ≠ "training_type" :=
    fun i hi => (key7_ne_misc hi).2.1
  have hkSu : ∀ i, i < 7 → key7 i ≠ "supplements" :=
    fun i hi => (key7_ne_misc hi).2.2.2.2.2.1
  have hkMe : ∀ i, i < 7 → key7 i ≠ "meditation" :=
    fun i hi => (key7_ne_misc hi).2.2.2.2.2.2.1
  have hkMM : ∀ i, i < 7 → key7 i ≠ "meditation_minutes" :=
    fun i hi => (key7_ne_misc hi).2.2.2.2.2.2.2
  cases i with
  | cancel =>
      exact ⟨fun s' m h => by simp [step] at h, fun r msgs h => by simp [step] at h⟩
  | callback d =>
      cases st with
      | ELECTRONICS_OFF =>
          have hd := legal_yn .ELECTRONICS_OFF rfl hleg
          exact ⟨fun s' m h => handle_yn_preserve _ 0 (by omega) rfl hInv _ _ d hd s' m h,
                 fun r msgs h => absurd h (handle_yn_no_save _ _ _ _ _ _ r msgs)⟩
      | NASAL_RINSE =>
          have hd := legal_yn .NASAL_RINSE rfl hleg
          exact ⟨fun s' m h => handle_yn_preserve _ 1 (by omega) rfl hInv _ _ d hd s' m h,
                 fun r msgs h => absurd h (handle_yn_no_save _ _ _ _ _ _ r msgs)⟩
      | NASAL_STRIPS =>
          have hd := legal_yn .NASAL_STRIPS rfl hleg
          exact ⟨fun s' m h => handle_yn_preserve _ 2 (by omega) rfl hInv _ _ d hd s' m h,
                 fun r msgs h => absurd h (handle_yn_no_save _ _ _ _ _ _ r msgs)⟩
      | MOUTH_TAPING =>
          have hd := legal_yn .MOUTH_TAPING rfl hleg
          exact ⟨fun s' m h => handle_yn_preserve _ 3 (by omega) rfl hInv _ _ d hd s' m h,
                 fun r msgs h => absurd h (handle_yn_no_save _ _ _ _ _ _ r msgs)⟩
      | SAUNA =>
          have hd := legal_yn .SAUNA rfl hleg
          exact ⟨fun s' m h => handle_yn_preserve _ 4 (by omega) rfl hInv _ _ d hd s' m h,
                 fun r msgs h => absurd h (handle_yn_no_save _ _ _ _ _ _ r msgs)⟩
      | DIAPHRAGM_WORK =>
          have hd := legal_yn .DIAPHRAGM_WORK rfl hleg
          exact ⟨fun s' m h => handle_yn_preserve _ 5 (by omega) rfl hInv _ _ d hd s' m h,
                 fun r msgs h => absurd h (handle_yn_no_save _ _ _ _ _ _ r msgs)⟩
      | HEAVY_SCREEN =>
          have hd := legal_yn .HEAVY_SCREEN rfl hleg
          exact ⟨fun s' m h => handle_yn_preserve _ 6 (by omega) rfl hInv _ _ d hd s' m h,
                 fun r msgs h => absurd h (handle_yn_no_save _ _ _ _ _ _ r msgs)⟩
      | TRAINING =>
          have h7 : InvAt dt 7 := sessInv_elim_not_waiting (by simp) hInv
          constructor
          · intro s' m h
            unfold step at h
            dsimp only at h
            unfold training at h
            dsimp only at h
            split at h
            · exact afterTraining_preserve ml _ _
                (InvAt_listSet_misc dt 7 _ _ hkTT (by decide) h7) s' m h
            · split at h
              · simp only [StepRes.next.injEq] at h
                obtain ⟨rfl, -⟩ := h
                exact sessInv_of_not_waiting (by simp) h7
              · exact afterTraining_preserve ml _ _
                  (InvAt_listSet_misc dt 7 _ _ hkTT (by decide) h7) s' m h
          · intro r msgs h
            unfold step at h
            dsimp only at h
            unfold training at h
            dsimp only at h
            split at h
            · exact absurd h (afterTraining_no_save _ _ _ _ _)
            · split at h
              · exact StepRes.noConfusion h
              · exact absurd h (afterTraining_no_save _ _ _ _ _)
      | LAST_MEAL_TIME =>
          have h7 : InvAt dt 7 := sessInv_elim_not_waiting (by simp) hInv
          constructor
          · intro s' m h
            unfold step at h
            dsimp only at h
            unfold last_meal_time at h
            dsimp only at h
            simp only [StepRes.next.injEq] at h
            obtain ⟨rfl, -⟩ := h
            refine sessInv_of_not_waiting (by simp) ?_
            exact InvAt_listSet_misc dt 7 _ _
              (fun i hi => (key7_ne_misc hi).2.2.1) (by decide) h7
          · intro r msgs h
            unfold step at h
            dsimp only at h
            unfold last_meal_time at h
            dsimp only at h
            exact StepRes.noConfusion h
      | CAFFEINE_CUTOFF =>
          have h7 : InvAt dt 7 := sessInv_elim_not_waiting (by simp) hInv
          constructor
          · intro s' m h
            unfold step at h
            dsimp only at h
            unfold caffeine_cutoff at h
            dsimp only at h
            simp only [StepRes.next.injEq] at h
            obtain ⟨rfl, -⟩ := h
            refine sessInv_of_not_waiting (by simp) ?_
            exact InvAt_listSet_misc dt 7 _ _
              (fun i hi => (key7_ne_misc hi).2.2.2.1) (by decide) h7
          · intro r msgs h
            unfold step at h
            dsimp only at h
            unfold caffeine_cutoff at h
            dsimp only at h
            exact StepRes.noConfusion h
      | HYDRATION =>
          have h7 : InvAt dt 7 := sessInv_elim_not_waiting (by simp) hInv
          constructor
          · intro s' m h
            unfold step at h
            dsimp only at h
            unfold hydration at h
            dsimp only at h
            simp only [StepRes.next.injEq] at h
            obtain ⟨rfl, -⟩ := h
            refine sessInv_of_not_waiting (by simp) ?_
            exact InvAt_listSet_misc dt 7 _ _
              (fun i hi => (key7_ne_misc hi).2.2.2.2.1) (by decide) h7
          · intro r msgs h
            unfold step at h
            dsimp only at h
            unfold hydration at h
            dsimp only at h
            exact StepRes.noConfusion h
      | SUPPLEMENTS =>
          have h7 : InvAt dt 7 := sessInv_elim_not_waiting (by simp) hInv
          constructor
          · intro s' m h
            unfold step at h
            dsimp only at h
            unfold supplements_btn at h
            dsimp only at h
            simp only [StepRes.next.injEq] at h
            obtain ⟨rfl, -⟩ := h
            refine sessInv_of_not_waiting (by simp) ?_
            exact InvAt_listSet_misc dt 7 _ _ hkSu (by decide) h7
          · intro r msgs h
            unfold step at h
            dsimp only at h
            unfold supplements_btn at h
            dsimp only at h
            exact StepRes.noConfusion h
      | MEDITATION =>
          have h7 : InvAt dt 7 := sessInv_elim_not_waiting (by simp) hInv
          have hd := legal_yn .MEDITATION rfl hleg
          rcases hd with rfl | rfl | rfl
          · constructor
            · intro s' m h
              unfold step at h
              dsimp only at h
              unfold meditation at h
              rw [(by decide : parsePyInt "1" = Option.some 1)] at h
              dsimp only at h
              rw [if_pos rfl] at h
              simp only [StepRes.next.injEq] at h
              obtain ⟨rfl, -⟩ := h
              refine sessInv_of_not_waiting (by simp) ?_
              exact InvAt_listSet_misc dt 7 _ _ hkMe (by decide) h7
            · intro r msgs h
              unfold step at h
              dsimp only at h
              unfold meditation at h
              rw [(by decide : parsePyInt "1" = Option.some 1)] at h
              dsimp only at h
              rw [if_pos rfl] at h
              exact StepRes.noConfusion h
          · constructor
            · intro s' m h
              unfold step at h
              dsimp only at h
              unfold meditation at h
              rw [(by decide : parsePyInt "0" = Option.some 0)] at h
              dsimp only at h
              rw [if_neg (by decide : ¬(0 : Int) = 1)] at h
              exact StepRes.noConfusion h
            · intro r msgs h
              unfold step at h
              dsimp only at h
              unfold meditation at h
              rw [(by decide : parsePyInt "0" = Option.some 0)] at h
              dsimp only at h
              rw [if_neg (by decide : ¬(0 : Int) = 1)] at h
              simp only [StepRes.save.injEq] at h
              obtain ⟨rfl, -⟩ := h
              exact RecordInv_of_InvAt7
                (InvAt_listSet_misc _ 7 _ _ hkMM (by decide)
                  (InvAt_listSet_misc dt 7 _ _ hkMe (by decide) h7))
          · constructor
            · intro s' m h
              unfold step at h
              dsimp only at h
              unfold meditation at h
              rw [(by decide : parsePyInt "other" = Option.none)] at h
              dsimp only at h
              exact StepRes.noConfusion h
            · intro r msgs h
              unfold step at h
              dsimp only at h
              unfold meditation at h
              rw [(by decide : parsePyInt "other" = Option.none)] at h
              dsimp only at h
              exact StepRes.noConfusion h
      | MEDITATION_MINUTES =>
          exact ⟨fun s' m h => by simp [step] at h, fun r msgs h => by simp [step] at h⟩
      | WAITING_OTHER_TEXT =>
          exact ⟨fun s' m h => by simp [step] at h, fun r msgs h => by simp [step] at h⟩
  | message t =>
      cases st with
      | TRAINING =>
          have h7 : InvAt dt 7 := sessInv_elim_not_waiting (by simp) hInv
          constructor
          · intro s' m h
            unfold step at h
            dsimp only at h
            unfold training_text at h
            dsimp only at h
            exact afterTraining_preserve ml _ _
              (InvAt_listSet_misc dt 7 _ _ hkTT (by decide) h7) s' m h
          · intro r msgs h
            unfold step at h
            dsimp only at h
            unfold training_text at h
            dsimp only at h
            exact absurd h (afterTraining_no_save _ _ _ _ _)
      | LAST_MEAL_TIME =>
          have h7 : InvAt dt 7 := sessInv_elim_not_waiting (by simp) hInv
          constructor
          · intro s' m h
            unfold step at h
            dsimp only at h
            unfold last_meal_time at h
            dsimp only at h
            simp only [StepRes.next.injEq] at h
            obtain ⟨rfl, -⟩ := h
            refine sessInv_of_not_waiting (by simp) ?_
            exact InvAt_listSet_misc dt 7 _ _
              (fun i hi => (key7_ne_misc hi).2.2.1) (by decide) h7
          · intro r msgs h
            unfold step at h
            dsimp only at h
            unfold last_meal_time at h
            dsimp only at h
            exact StepRes.noConfusion h
      | CAFFEINE_CUTOFF =>
          have h7 : InvAt dt 7 := sessInv_elim_not_waiting (by simp) hInv
          constructor
          · intro s' m h
            unfold step at h
            dsimp only at h
            unfold caffeine_cutoff at h
            dsimp only at h
            simp only [StepRes.next.injEq] at h
            obtain ⟨rfl, -⟩ := h
            refine sessInv_of_not_waiting (by simp) ?_
            exact InvAt_listSet_misc dt 7 _ _
              (fun i hi => (key7_ne_misc hi).2.2.2.1) (by decide) h7
          · intro r msgs h
            unfold step at h
            dsimp only at h
            unfold caffeine_cutoff at h
            dsimp only at h
            exact StepRes.noConfusion h
      | SUPPLEMENTS =>
          have h7 : InvAt dt 7 := sessInv_elim_not_waiting (by simp) hInv
          constructor
          · intro s' m h
            unfold step at h
            dsimp only at h
            unfold supplements_text at h
            dsimp only at h
            simp only [StepRes.next.injEq] at h
            obtain ⟨rfl, -⟩ := h
            refine sessInv_of_not_waiting (by simp) ?_
            exact InvAt_listSet_misc dt 7 _ _ hkSu (by decide) h7
          · intro r msgs h
            unfold step at h
            dsimp only at h
            unfold supplements_text at h
            dsimp only at h
            exact StepRes.noConfusion h
      | MEDITATION_MINUTES =>
          have h7 : InvAt dt 7 := sessInv_elim_not_waiting (by simp) hInv
          constructor
          · intro s' m h
            unfold step at h
            dsimp only at h
            unfold meditation_minutes at h
            dsimp only at h
            split at h
            · simp only [StepRes.next.injEq] at h
              obtain ⟨rfl, -⟩ := h
              exact hInv
            · exact StepRes.noConfusion h
          · intro r msgs h
            unfold step at h
            dsimp only at h
            unfold meditation_minutes at h
            dsimp only at h
            split at h
            · exact StepRes.noConfusion h
            · simp only [StepRes.save.injEq] at h
              obtain ⟨rfl, -⟩ := h
              exact RecordInv_of_InvAt7 (InvAt_listSet_misc dt 7 _ _ hkMM (by decide) h7)
      | WAITING_OTHER_TEXT =>
          constructor
          · intro s' m h
            unfold step at h
            dsimp only at h
            exact waiting_preserve _ rfl hInv t s' m h
          · intro r msgs h
            unfold step at h
            dsimp only at h
            exact absurd h (waiting_no_save _ _ _ _)
      | ELECTRONICS_OFF =>
          exact ⟨fun s' m h => by simp [step] at h, fun r msgs h => by simp [step] at h⟩
      | NASAL_RINSE =>
          exact ⟨fun s' m h => by simp [step] at h, fun r msgs h => by simp [step] at h⟩
      | NASAL_STRIPS =>
          exact ⟨fun s' m h => by simp [step] at h, fun r msgs h => by simp [step] at h⟩
      | MOUTH_TAPING =>
          exact ⟨fun s' m h => by simp [step] at h, fun r msgs h => by simp [step] at h⟩
      | SAUNA =>
          exact ⟨fun s' m h => by simp [step] at h, fun r msgs h => by simp [step] at h⟩
      | DIAPHRAGM_WORK =>
          exact ⟨fun s' m h => by simp [step] at h, fun r msgs h => by simp [step] at h⟩
      | HEAVY_SCREEN =>
          exact ⟨fun s' m h => by simp [step] at h, fun r msgs h => by simp [step] at h⟩
      | HYDRATION =>
          exact ⟨fun s' m h => by simp [step] at h, fun r msgs h => by simp [step] at h⟩
      | MEDITATION =>
          exact ⟨fun s' m h => by simp [step] at h, fun r msgs h => by simp [step] at h⟩

theorem step_day (ml : String → Option String) (s : Sess) (i : Input) :
    ∀ s' m, step ml s i = .next s' m → s'.day = s.day := by
  intro s' m h
  obtain ⟨st, dt, pd, dy⟩ := s
  show s'.day = dy
  cases i <;> cases st <;>
    simp only [step, handle_yn, training, training_text, afterTraining, last_meal_time,
      caffeine_cutoff, hydration, supplements_btn, supplements_text, meditation,
      meditation_minutes, waiting_other_text] at h <;>
    repeat' split at h
  all_goals
    first
      | exact StepRes.noConfusion h
      | (simp only [StepRes.next.injEq] at h; obtain ⟨rfl, -⟩ := h; rfl)

theorem sessInv_start (day : String) : SessInv (startSess day) := by
  apply sessInv_of_not_waiting (by simp [startSess, checklist_start])
  exact ⟨fun i hi _ => absurd hi (by simp [startSess, checklist_start, progress]),
         fun i _ _ => ⟨rfl, rfl⟩⟩

theorem run_saved_inv (ml : String → Option String) :
    ∀ (inps : List Input) (db : DB) (s : Sess),
    SessInv s → legalRun ml s inps = true →
    ∀ db' r, run ml db s inps = (db', .saved r) →
      RecordInv r ∧ db' = save_checklist db s.day r := by
  intro inps
  induction inps with
  | nil =>
      intro db s _ _ db' r h
      simp [run] at h
  | cons i rest ih =>
      intro db s hInv hleg db' r h
      unfold legalRun at hleg
      rw [Bool.and_eq_true] at hleg
      obtain ⟨hl1, hl2⟩ := hleg
      unfold run at h
      cases hstep : step ml s i with
      | next s' m =>
          rw [hstep] at h hl2
          have hInv' := (step_preserve ml s i hInv hl1).1 s' m hstep
          have hrec := ih db s' hInv' hl2 db' r h
          refine ⟨hrec.1, ?_⟩
          rw [hrec.2, step_day ml s i s' m hstep]
      | noop =>
          rw [hstep] at h hl2
          exact ih db s hInv hl2 db' r h
      | fin m =>
          rw [hstep] at h
          simp at h
      | save r' msgs =>
          rw [hstep] at h
          simp only [Prod.mk.injEq, RunRes.saved.injEq] at h
          obtain ⟨hdb, hr⟩ := h
          subst hr
          exact ⟨(step_preserve ml s i hInv hl1).2 r' msgs hstep, hdb.symm⟩
      | crash =>
          rw [hstep] at h
          simp at h

theorem filter_save (db : DB) (day : String) (d : List (String × PyVal)) :
    (save_checklist db day d).filter (fun r => r.date == day) = [toRow day d] := by
  unfold save_checklist
  rw [List.filter_append]
  have h1 : (db.filter (fun r => !(r.date == day))).filter (fun r => r.date == day) = [] := by
    induction db with
    | nil => rfl
    | cons r rest ih =>
        by_cases h : r.date = day
        · simp only [List.filter, h]
          simp [ih]
        · simp only [List.filter]
          rw [show ((r.date == day) : Bool) = false by simp [h]]
          simp only [Bool.not_false]
          simp [ih, h]
  rw [h1]
  simp [toRow]

theorem dbGet_save (db : DB) (day : String) (d : List (String × PyVal)) :
    dbGet (save_checklist db day d) day = Option.some (toRow day d) := by
  unfold dbGet save_checklist
  induction db with
  | nil => simp [List.find?, toRow]
  | cons r rest ih =>
      by_cases h : r.date = day
      · simpa [List.filter, h] using ih
      · simp only [List.filter]
        rw [show ((r.date == day) : Bool) = false by simp [h]]
        simp only [Bool.not_false, List.cons_append, List.find?]
        rw [show ((r.date == day) : Bool) = false by simp [h]]
        exact ih

theorem rowBool_toRow (day : String) (d : List (String × PyVal)) {i : Nat} (hi : i < 7) :
    rowBool (toRow day d) i = pyGet d (key7 i) := by
  interval_cases i <;> rfl

theorem rowNoteHas_toRow (day : String) (d : List (String × PyVal)) (k : String) :
    rowNoteHas (toRow day d) k = (noteGet d k).isSome := by
  unfold rowNoteHas toRow noteGet noteDict pyGet
  cases hv : listGet d "other_notes" with
  | none => simp [pyTruthy, listGet]
  | some v =>
      cases v with
      | none => simp [pyTruthy, listGet]
      | int n => by_cases hn : n = 0 <;> simp [pyTruthy, hn, listGet]
      | str s => by_cases hs : s = "" <;> simp [pyTruthy, hs, listGet]
      | dict m =>
          cases m with
          | nil => simp [pyTruthy, listGet]
          | cons p rest => simp [pyTruthy]

theorem RowDecided_of_Decided (day : String) (d : List (String × PyVal)) {i : Nat}
    (hi : i < 7) (h : Decided d (key7 i)) : RowDecided (toRow day d) i := by
  unfold RowDecided
  rw [rowBool_toRow day d hi, rowNoteHas_toRow]
  unfold Decided at h
  rcases h with ⟨h1, h2⟩ | ⟨h1, h2⟩
  · left
    refine ⟨?_, ?_⟩
    · unfold pyGet
      rcases h1 with h1 | h1 <;> rw [h1]
      · left; rfl
      · right; rfl
    · rw [show noteGet d (key7 i) = Option.none from h2]
      rfl
  · right
    refine ⟨?_, ?_⟩
    · unfold pyGet
      rw [h1]
      rfl
    · exact h2

theorem stateOf7_ne_lastmeal (n : Nat) : stateOf7 n ≠ .LAST_MEAL_TIME := by
  match n with
  | 0 | 1 | 2 | 3 | 4 | 5 | 6 => decide
  | m + 7 => exact fun h => ChatState.noConfusion h

theorem handle_yn_states (s : Sess) (k q : String) (st' : ChatState) (kb : Option KB)
    (d : String) : ∀ s' m, handle_yn s k q st' kb d = .next s' m →
    s'.state = st' ∨ s'.state = .WAITING_OTHER_TEXT := by
  intro s' m h
  unfold handle_yn at h
  split at h
  · simp only [StepRes.next.injEq] at h
    obtain ⟨rfl, -⟩ := h
    right; rfl
  · split at h
    · exact StepRes.noConfusion h
    · simp only [StepRes.next.injEq] at h
      obtain ⟨rfl, -⟩ := h
      left; rfl

theorem waiting_next_state (s : Sess) (hst : s.state = .WAITING_OTHER_TEXT)
    (hInv : SessInv s) (t : String) :
    ∀ s' m, waiting_other_text s t = .next s' m →
      ∃ j, j < 7 ∧ s'.state = stateOf7 (j + 1) := by
  obtain ⟨p, j, hp, hj, hkey, hnext, hIA⟩ := sessInv_elim_waiting hst hInv
  intro s' m h
  unfold waiting_other_text at h
  rw [hp] at h
  simp only [StepRes.next.injEq] at h
  obtain ⟨rfl, -⟩ := h
  exact ⟨j, hj, hnext⟩

theorem step_not_into_lastmeal (ml : String → Option String) (v : String) (s0 : Sess)
    (i : Input) (hml : ml s0.day = Option.some v) (hInv : SessInv s0) :
    ∀ s' m, step ml s0 i = .next s' m → s'.state ≠ .LAST_MEAL_TIME := by
  intro s' m h
  obtain ⟨st0, dt0, pd0, dy0⟩ := s0
  dsimp only at hml
  cases i with
  | cancel => exact absurd h (by simp [step])
  | callback d =>
      cases st0
      case ELECTRONICS_OFF =>
          unfold step at h; dsimp only at h
          rcases handle_yn_states _ _ _ _ _ _ s' m h with h1 | h1 <;> rw [h1] <;> simp
      case NASAL_RINSE =>
          unfold step at h; dsimp only at h
          rcases handle_yn_states _ _ _ _ _ _ s' m h with h1 | h1 <;> rw [h1] <;> simp
      case NASAL_STRIPS =>
          unfold step at h; dsimp only at h
          rcases handle_yn_states _ _ _ _ _ _ s' m h with h1 | h1 <;> rw [h1] <;> simp
      case MOUTH_TAPING =>
          unfold step at h; dsimp only at h
          rcases handle_yn_states _ _ _ _ _ _ s' m h with h1 | h1 <;> rw [h1] <;> simp
      case SAUNA =>
          unfold step at h; dsimp only at h
          rcases handle_yn_states _ _ _ _ _ _ s' m h with h1 | h1 <;> rw [h1] <;> simp
      case DIAPHRAGM_WORK =>
          unfold step at h; dsimp only at h
          rcases handle_yn_states _ _ _ _ _ _ s' m h with h1 | h1 <;> rw [h1] <;> simp
      case HEAVY_SCREEN =>
          unfold step at h; dsimp only at h
          rcases handle_yn_states _ _ _ _ _ _ s' m h with h1 | h1 <;> rw [h1] <;> simp
      case TRAINING =>
          unfold step at h; dsimp only at h
          unfold training at h
          split at h
          · unfold afterTraining at h; dsimp only at h
            rw [hml] at h; dsimp only at h
            simp only [StepRes.next.injEq] at h
            obtain ⟨rfl, -⟩ := h
            simp
          · split at h
            · simp only [StepRes.next.injEq] at h
              obtain ⟨rfl, -⟩ := h
              simp
            · unfold afterTraining at h; dsimp only at h
              rw [hml] at h; dsimp only at h
              simp only [StepRes.next.injEq] at h
              obtain ⟨rfl, -⟩ := h
              simp
      case LAST_MEAL_TIME =>
          unfold step at h; dsimp only at h
          unfold last_meal_time at h; dsimp only at h
          simp only [StepRes.next.injEq] at h
          obtain ⟨rfl, -⟩ := h
          simp
      case CAFFEINE_CUTOFF =>
          unfold step at h; dsimp only at h
          unfold caffeine_cutoff at h; dsimp only at h
          simp only [StepRes.next.injEq] at h
          obtain ⟨rfl, -⟩ := h
          simp
      case HYDRATION =>
          unfold step at h; dsimp only at h
          unfold hydration at h
          simp only [StepRes.next.injEq] at h
          obtain ⟨rfl, -⟩ := h
          simp
      case SUPPLEMENTS =>
          unfold step at h; dsimp only at h
          unfold supplements_btn at h
          simp only [StepRes.next.injEq] at h
          obtain ⟨rfl, -⟩ := h
          simp
      case MEDITATION =>
          unfold step at h; dsimp only at h
          unfold meditation at h
          rcases hp : parsePyInt d with - | v2 <;> rw [hp] at h <;> dsimp only at h
          · exact StepRes.noConfusion h
          · by_cases hv2 : v2 = 1
            · rw [if_pos hv2] at h
              simp only [StepRes.next.injEq] at h
              obtain ⟨rfl, -⟩ := h
              simp
            · rw [if_neg hv2] at h
              exact StepRes.noConfusion h
      case MEDITATION_MINUTES =>
          unfold step at h; dsimp only at h
          exact StepRes.noConfusion h
      case WAITING_OTHER_TEXT =>
          unfold step at h; dsimp only at h
          exact StepRes.noConfusion h
  | message t =>
      cases st0
      case TRAINING =>
          unfold step at h; dsimp only at h
          unfold training_text at h
          unfold afterTraining at h; dsimp only at h
          rw [hml] at h; dsimp only at h
          simp only [StepRes.next.injEq] at h
          obtain ⟨rfl, -⟩ := h
          simp
      case LAST_MEAL_TIME =>
          unfold step at h; dsimp only at h
          unfold last_meal_time at h; dsimp only at h
          simp only [StepRes.next.injEq] at h
          obtain ⟨rfl, -⟩ := h
          simp
      case CAFFEINE_CUTOFF =>
          unfold step at h; dsimp only at h
          unfold caffeine_cutoff at h; dsimp only at h
          simp only [StepRes.next.injEq] at h
          obtain ⟨rfl, -⟩ := h
          simp
      case SUPPLEMENTS =>
          unfold step at h; dsimp only at h
          unfold supplements_text at h
          simp only [StepRes.next.injEq] at h
          obtain ⟨rfl, -⟩ := h
          simp
      case MEDITATION_MINUTES =>
          unfold step at h; dsimp only at h
          unfold meditation_minutes at h
          rcases hp : parsePyInt (pyStrip t) with - | n <;> rw [hp] at h <;> dsimp only at h
          · simp only [StepRes.next.injEq] at h
            obtain ⟨rfl, -⟩ := h
            simp
          · exact StepRes.noConfusion h
      case WAITING_OTHER_TEXT =>
          unfold step at h; dsimp only at h
          obtain ⟨j, hj, hst⟩ :=
            waiting_next_state ⟨.WAITING_OTHER_TEXT, dt0, pd0, dy0⟩ rfl hInv t s' m h
          rw [hst]
          exact stateOf7_ne_lastmeal (j + 1)
      case ELECTRONICS_OFF =>
          unfold step at h; dsimp only at h
          exact StepRes.noConfusion h
      case NASAL_RINSE =>
          unfold step at h; dsimp only at h
          exact StepRes.noConfusion h
      case NASAL_STRIPS =>
          unfold step at h; dsimp only at h
          exact StepRes.noConfusion h
      case MOUTH_TAPING =>
          unfold step at h; dsimp only at h
          exact StepRes.noConfusion h
      case SAUNA =>
          unfold step at h; dsimp only at h
          exact StepRes.noConfusion h
      case DIAPHRAGM_WORK =>
          unfold step at h; dsimp only at h
          exact StepRes.noConfusion h
      case HEAVY_SCREEN =>
          unfold step at h; dsimp only at h
          exact StepRes.noConfusion h
      case HYDRATION =>
          unfold step at h; dsimp only at h
          exact StepRes.noConfusion h
      case MEDITATION =>
          unfold step at h; dsimp only at h
          exact StepRes.noConfusion h

theorem NInv_listSet (s' : Sess) (dt : List (String × PyVal)) (k : String) (v : PyVal)
    (hk : k ≠ "other_notes") (hW : s'.state ≠ .WAITING_OTHER_TEXT)
    (hd : s'.data = listSet dt k v) (h2 : listGet dt "other_notes" = Option.none) :
    NInv s' := by
  refine ⟨hW, ?_⟩
  rw [hd, listGet_listSet_ne _ _ _ _ hk]
  exact h2

theorem step_preserve_notes (ml : String → Option String) (s : Sess) (i : Input)
    (hN : NInv s) (hno : (!(isBool7 s.state && i == .callback "other")) = true) :
    (∀ s' m, step ml s i = .next s' m → NInv s') ∧
    (∀ r msgs, step ml s i = .save r msgs → listGet r "other_notes" = Option.none) := by
  obtain ⟨hW, hn⟩ := hN
  obtain ⟨st, dt, pd, dy⟩ := s
  dsimp only at hW hn hno
  cases i with
  | cancel =>
      exact ⟨fun s' m h => by simp [step] at h, fun r msgs h => by simp [step] at h⟩
  | callback d =>
      cases st
      case WAITING_OTHER_TEXT => exact absurd rfl hW
      case TRAINING =>
          constructor
          · intro s' m h
            unfold step at h; dsimp only at h
            unfold training at h
            split at h
            · unfold afterTraining at h; dsimp only at h
              split at h <;>
                (simp only [StepRes.next.injEq] at h; obtain ⟨rfl, -⟩ := h)
              · refine NInv_listSet _ _ "last_meal_time" _ (by decide) (by simp) rfl ?_
                rw [listGet_listSet_ne _ _ _ _ (by decide : "training_type" ≠ "other_notes")]
                exact hn
              · exact NInv_listSet _ dt "training_type" _ (by decide) (by simp) rfl hn
            · split at h
              · simp only [StepRes.next.injEq] at h
                obtain ⟨rfl, -⟩ := h
                exact ⟨by simp, hn⟩
              · unfold afterTraining at h; dsimp only at h
                split at h <;>
                  (simp only [StepRes.next.injEq] at h; obtain ⟨rfl, -⟩ := h)
                · refine NInv_listSet _ _ "last_meal_time" _ (by decide) (by simp) rfl ?_
                  rw [listGet_listSet_ne _ _ _ _ (by decide : "training_type" ≠ "other_notes")]
                  exact hn
                · exact NInv_listSet _ dt "training_type" _ (by decide) (by simp) rfl hn
          · intro r msgs h
            unfold step at h; dsimp only at h
            unfold training at h
            split at h
            · exact absurd h (afterTraining_no_save _ _ _ _ _)
            · split at h
              · exact StepRes.noConfusion h
              · exact absurd h (afterTraining_no_save _ _ _ _ _)
      case LAST_MEAL_TIME =>
          constructor
          · intro s' m h
            unfold step at h; dsimp only at h
            unfold last_meal_time at h; dsimp only at h
            simp only [StepRes.next.injEq] at h
            obtain ⟨rfl, -⟩ := h
            exact NInv_listSet _ dt "last_meal_time" _ (by decide) (by simp) rfl hn
          · intro r msgs h
            unfold step at h; dsimp only at h
            unfold last_meal_time at h; dsimp only at h
            exact StepRes.noConfusion h
      case CAFFEINE_CUTOFF =>
          constructor
          · intro s' m h
            unfold step at h; dsimp only at h
            unfold caffeine_cutoff at h; dsimp only at h
            simp only [StepRes.next.injEq] at h
            obtain ⟨rfl, -⟩ := h
            exact NInv_listSet _ dt "caffeine_cutoff" _ (by decide) (by simp) rfl hn
          · intro r msgs h
            unfold step at h; dsimp only at h
            unfold caffeine_cutoff at h; dsimp only at h
            exact StepRes.noConfusion h
      case HYDRATION =>
          constructor
          · intro s' m h
            unfold step at h; dsimp only at h
            unfold hydration at h
            simp only [StepRes.next.injEq] at h
            obtain ⟨rfl, -⟩ := h
            exact NInv_listSet _ dt "hydration" _ (by decide) (by simp) rfl hn
          · intro r msgs h
            unfold step at h; dsimp only at h
            unfold hydration at h
            exact StepRes.noConfusion h
      case SUPPLEMENTS =>
          constructor
          · intro s' m h
            unfold step at h; dsimp only at h
            unfold supplements_btn at h
            simp only [StepRes.next.injEq] at h
            obtain ⟨rfl, -⟩ := h
            exact NInv_listSet _ dt "supplements" _ (by decide) (by simp) rfl hn
          · intro r msgs h
            unfold step at h; dsimp only at h
            unfold supplements_btn at h
            exact StepRes.noConfusion h
      case MEDITATION =>
          constructor
          · intro s' m h
            unfold step at h; dsimp only at h
            unfold meditation at h
            rcases hp : parsePyInt d with - | v2 <;> rw [hp] at h <;> dsimp only at h
            · exact StepRes.noConfusion h
            · by_cases hv2 : v2 = 1
              · rw [if_pos hv2] at h
                simp only [StepRes.next.injEq] at h
                obtain ⟨rfl, -⟩ := h
                exact NInv_listSet _ dt "meditation" _ (by decide) (by simp) rfl hn
              · rw [if_neg hv2] at h
                exact StepRes.noConfusion h
          · intro r msgs h
            unfold step at h; dsimp only at h
            unfold meditation at h
            rcases hp : parsePyInt d with - | v2 <;> rw [hp] at h <;> dsimp only at h
            · exact StepRes.noConfusion h
            · by_cases hv2 : v2 = 1
              · rw [if_pos hv2] at h
                exact StepRes.noConfusion h
              · rw [if_neg hv2] at h
                simp only [StepRes.save.injEq] at h
                obtain ⟨rfl, -⟩ := h
                rw [listGet_listSet_ne _ _ _ _ (by decide : "meditation_minutes" ≠ "other_notes"),
                    listGet_listSet_ne _ _ _ _ (by decide : "meditation" ≠ "other_notes")]
                exact hn
      case MEDITATION_MINUTES =>
          exact ⟨fun s' m h => by simp [step] at h, fun r msgs h => by simp [step] at h⟩
      all_goals
          -- the seven boolean-question states: the Other button is excluded,
          -- and 1/0 write the question key; unparsable data crashes
          constructor
          · intro s' m h
            unfold step at h; dsimp only at h
            unfold handle_yn at h
            split at h
            · next hd0 =>
                subst hd0
                simp [isBool7] at hno
            · split at h
              · exact StepRes.noConfusion h
              · simp only [StepRes.next.injEq] at h
                obtain ⟨rfl, -⟩ := h
                refine NInv_listSet _ dt _ _ ?_ (by simp) rfl hn
                decide
          · intro r msgs h
            unfold step at h; dsimp only at h
            exact absurd h (handle_yn_no_save _ _ _ _ _ _ r msgs)
  | message t =>
      cases st
      case WAITING_OTHER_TEXT => exact absurd rfl hW
      case TRAINING =>
          constructor
          · intro s' m h
            unfold step at h; dsimp only at h
            unfold training_text at h
            unfold afterTraining at h; dsimp only at h
            split at h <;>
              (simp only [StepRes.next.injEq] at h; obtain ⟨rfl, -⟩ := h)
            · refine NInv_listSet _ _ "last_meal_time" _ (by decide) (by simp) rfl ?_
              rw [listGet_listSet_ne _ _ _ _ (by decide : "training_type" ≠ "other_notes")]
              exact hn
            · exact NInv_listSet _ dt "training_type" _ (by decide) (by simp) rfl hn
          · intro r msgs h
            unfold step at h; dsimp only at h
            unfold training_text at h
            exact absurd h (afterTraining_no_save _ _ _ _ _)
      case LAST_MEAL_TIME =>
          constructor
          · intro s' m h
            unfold step at h; dsimp only at h
            unfold last_meal_time at h; dsimp only at h
            simp only [StepRes.next.injEq] at h
            obtain ⟨rfl, -⟩ := h
            exact NInv_listSet _ dt "last_meal_time" _ (by decide) (by simp) rfl hn
          · intro r msgs h
            unfold step at h; dsimp only at h
            unfold last_meal_time at h; dsimp only at h
            exact StepRes.noConfusion h
      case CAFFEINE_CUTOFF =>
          constructor
          · intro s' m h
            unfold step at h; dsimp only at h
            unfold caffeine_cutoff at h; dsimp only at h
            simp only [StepRes.next.injEq] at h
            obtain ⟨rfl, -⟩ := h
            exact NInv_listSet _ dt "caffeine_cutoff" _ (by decide) (by simp) rfl hn
          · intro r msgs h
            unfold step at h; dsimp only at h
            unfold caffeine_cutoff at h; dsimp only at h
            exact StepRes.noConfusion h
      case SUPPLEMENTS =>
          constructor
          · intro s' m h
            unfold step at h; dsimp only at h
            unfold supplements_text at h
            simp only [StepRes.next.injEq] at h
            obtain ⟨rfl, -⟩ := h
            exact NInv_listSet _ dt "supplements" _ (by decide) (by simp) rfl hn
          · intro r msgs h
            unfold step at h; dsimp only at h
            unfold supplements_text at h
            exact StepRes.noConfusion h
      case MEDITATION_MINUTES =>
          constructor
          · intro s' m h
            unfold step at h; dsimp only at h
            unfold meditation_minutes at h
            rcases hp : parsePyInt (pyStrip t) with - | n <;> rw [hp] at h <;> dsimp only at h
            · simp only [StepRes.next.injEq] at h
              obtain ⟨rfl, -⟩ := h
              exact ⟨by simp, hn⟩
            · exact StepRes.noConfusion h
          · intro r msgs h
            unfold step at h; dsimp only at h
            unfold meditation_minutes at h
            rcases hp : parsePyInt (pyStrip t) with - | n <;> rw [hp] at h <;> dsimp only at h
            · exact StepRes.noConfusion h
            · simp only [StepRes.save.injEq] at h
              obtain ⟨rfl, -⟩ := h
              rw [listGet_listSet_ne _ _ _ _
                    (by decide : "meditation_minutes" ≠ "other_notes")]
              exact hn
      all_goals
          exact ⟨fun s' m h => by simp [step] at h, fun r msgs h => by simp [step] at h⟩

theorem NInv_start (day : String) : NInv (startSess day) :=
  ⟨by simp [startSess, checklist_start], rfl⟩

theorem run_notes (ml : String → Option String) :
    ∀ (inps : List Input) (db : DB) (s : Sess),
    NInv s → noOtherRun ml s inps = true →
    ∀ db' r, run ml db s inps = (db', .saved r) →
      listGet r "other_notes" = Option.none := by
  intro inps
  induction inps with
  | nil =>
      intro db s _ _ db' r h
      simp [run] at h
  | cons i rest ih =>
      intro db s hN hno db' r h
      unfold noOtherRun at hno
      rw [Bool.and_eq_true] at hno
      obtain ⟨hno1, hno2⟩ := hno
      unfold run at h
      cases hstep : step ml s i with
      | next s' m =>
          rw [hstep] at h hno2
          exact ih db s' ((step_preserve_notes ml s i hN hno1).1 s' m hstep) hno2 db' r h
      | noop =>
          rw [hstep] at h hno2
          exact ih db s hN hno2 db' r h
      | fin m =>
          rw [hstep] at h
          simp at h
      | save r' msgs =>
          rw [hstep] at h
          simp only [Prod.mk.injEq, RunRes.saved.injEq] at h
          obtain ⟨-, hr⟩ := h
          subst hr
          exact (step_preserve_notes ml s i hN hno1).2 r' msgs hstep
      | crash =>
          rw [hstep] at h
          simp at h

/-- Claim C1: at each of the seven boolean-question states, tapping `Other`
and then sending stripped non-empty free text `t` nulls that question's
field, records `other_notes[key] = t`, and resumes at exactly the state,
question prompt and keyboard that a direct Yes answer would have produced. -/
theorem C1_override_detour (ml : String → Option String) (s : Sess)
    (k q : String) (st' : ChatState) (kb : Option KB)
    (hspec : ynSpec s.state = Option.some (k, q, st', kb))
    (t : String) (ht : (pyStrip t) = t) (ht0 : t ≠ "") :
    ∃ s1 m1 s2 m2 sy my,
      step ml s (.callback "other") = .next s1 m1 ∧
      step ml s1 (.message t) = .next s2 m2 ∧
      step ml s (.callback "1") = .next sy my ∧
      s2.state = st' ∧ sy.state = st' ∧
      listGet s2.data k = Option.some PyVal.none ∧
      noteGet s2.data k = Option.some t ∧
      m2.text = "\"" ++ t ++ "\" — got it.\n\n" ++ q ∧
      my.text = "Yes — got it.\n\n" ++ q ∧
      m2.kb = my.kb ∧ m2.kb = Option.some (kb.getD YES_NO_KB) := by
  obtain ⟨st, dt, pd, dy⟩ := s
  cases st <;>
    first
      | (simp only [ynSpec] at hspec
         exact Option.noConfusion hspec)
      | (simp only [ynSpec, Option.some.injEq, Prod.mk.injEq] at hspec
         obtain ⟨rfl, rfl, rfl, rfl⟩ := hspec
         refine ⟨_, _, _, _, _, _, rfl, rfl, rfl, rfl, rfl, ?_, ?_, ?_, by decide, rfl, rfl⟩
         · rw [listGet_listSet_ne _ _ _ _ (by decide)]
           exact listGet_listSet_self _ _ _
         · unfold noteGet
           rw [noteDict_listSet_notes, listGet_listSet_self, ht]
         · rw [ht])

/-- Witness for C1: `Other` then "felt sick" at the first question. -/
theorem C1_override_detour_witness :
    ynSpec (startSess "2025-06-01").state =
      Option.some ("electronics_off", "Did you rinse your nose?",
        ChatState.NASAL_RINSE, (Option.none : Option KB)) ∧
    pyStrip "felt sick" = "felt sick" ∧ "felt sick" ≠ "" ∧
    (∃ s1 m1 s2 m2 sy my,
      step ml0 (startSess "2025-06-01") (.callback "other") = .next s1 m1 ∧
      step ml0 s1 (.message "felt sick") = .next s2 m2 ∧
      step ml0 (startSess "2025-06-01") (.callback "1") = .next sy my ∧
      s2.state = ChatState.NASAL_RINSE ∧ sy.state = ChatState.NASAL_RINSE ∧
      listGet s2.data "electronics_off" = Option.some PyVal.none ∧
      noteGet s2.data "electronics_off" = Option.some "felt sick" ∧
      m2.text = "\"" ++ "felt sick" ++ "\" — got it.\n\n" ++ "Did you rinse your nose?" ∧
      my.text = "Yes — got it.\n\n" ++ "Did you rinse your nose?" ∧
      m2.kb = my.kb ∧
      m2.kb = Option.some ((Option.none : Option KB).getD YES_NO_KB)) :=
  ⟨rfl, rfl, by decide,
   C1_override_detour ml0 (startSess "2025-06-01") _ _ _ _ rfl "felt sick" rfl (by decide)⟩

/-- Claim C2: a completed legal-input run persists a row in which each of
the seven boolean columns is either 1/0 with no note for its key, or NULL
with `other_notes` holding that key — never unset without a note, never a
note beside a non-null column. -/
theorem C2_record_invariant (ml : String → Option String) (day : String)
    (inps : List Input) (db db' : DB) (r : List (String × PyVal))
    (hleg : legalRun ml (startSess day) inps = true)
    (hrun : run ml db (startSess day) inps = (db', .saved r)) :
    dbGet db' day = Option.some (toRow day r) ∧
    ∀ i, i < 7 → RowDecided (toRow day r) i := by
  obtain ⟨hrec, hdb⟩ :=
    run_saved_inv ml inps db _ (sessInv_start day) hleg db' r hrun
  constructor
  · rw [hdb]
    exact dbGet_save db day r
  · intro i hi
    exact RowDecided_of_Decided day r hi (hrec i hi)

/-- Witness for C2 at the spec's end-to-end scenario. -/
theorem C2_record_invariant_witness :
    legalRun ml0 (startSess "2025-06-01") demoFull = true ∧
    ∃ db' r, run ml0 [] (startSess "2025-06-01") demoFull = (db', .saved r) ∧
      dbGet db' "2025-06-01" = Option.some (toRow "2025-06-01" r) ∧
      ∀ i, i < 7 → RowDecided (toRow "2025-06-01" r) i := by
  refine ⟨rfl, _, _, rfl, ?_⟩
  exact C2_record_invariant ml0 "2025-06-01" demoFull [] _ _ rfl rfl

/-- Claim C3 counterexample: at MeditationMinutes the text "-5" does not
parse as a positive integer, yet the machine does not re-emit the state —
it stores `meditation_minutes = -5` and performs the terminal save. -/
theorem C3_counterexample :
    parsePyInt "-5" = Option.some (-5) ∧ ((-5 : Int) < 1) ∧
    sessMM.state = ChatState.MEDITATION_MINUTES ∧
    isSave (step ml0 sessMM (.message "-5")) = true ∧
    listGet (savedRec (step ml0 sessMM (.message "-5"))) "meditation_minutes" =
      Option.some (.int (-5)) :=
  ⟨by decide, by decide, rfl, rfl, rfl⟩

/-- Claim C3 (amended): at MeditationMinutes, input whose stripped text does
not parse as a Python integer (of any sign) re-emits the same state with an
error prompt and mutates nothing; input parsing as integer n stores
`meditation_minutes = n` and proceeds to the terminal Save. -/
theorem C3_minutes_validation (ml : String → Option String) (s : Sess)
    (hs : s.state = .MEDITATION_MINUTES) (t : String) :
    (parsePyInt (pyStrip t) = Option.none →
      step ml s (.message t) = .next s ⟨"Please enter a number (minutes).", Option.none⟩) ∧
    (∀ n : Int, parsePyInt (pyStrip t) = Option.some n →
      step ml s (.message t) =
        .save (listSet s.data "meditation_minutes" (.int n))
          [⟨"Got it.", Option.none⟩,
           ⟨formatSummary s.day (listSet s.data "meditation_minutes" (.int n)),
            Option.none⟩]) := by
  obtain ⟨st, dt, pd, dy⟩ := s
  dsimp only at hs
  subst hs
  constructor
  · intro hp
    unfold step
    dsimp only
    unfold meditation_minutes
    rw [hp]
  · intro n hp
    unfold step
    dsimp only
    unfold meditation_minutes
    rw [hp]

/-- Witness for the amended C3: "abc" retries, "15" saves 15. -/
theorem C3_minutes_validation_witness :
    sessMM.state = ChatState.MEDITATION_MINUTES ∧
    parsePyInt (pyStrip "abc") = Option.none ∧
    parsePyInt (pyStrip "15") = Option.some 15 ∧
    step ml0 sessMM (.message "abc") =
      .next sessMM ⟨"Please enter a number (minutes).", Option.none⟩ ∧
    step ml0 sessMM (.message "15") =
      .save (listSet sessMM.data "meditation_minutes" (.int 15))
        [⟨"Got it.", Option.none⟩,
         ⟨formatSummary sessMM.day (listSet sessMM.data "meditation_minutes" (.int 15)),
          Option.none⟩] :=
  ⟨rfl, by decide, by decide,
   (C3_minutes_validation ml0 sessMM rfl "abc").1 (by decide),
   (C3_minutes_validation ml0 sessMM rfl "15").2 15 (by decide)⟩

/-- Claim C4: `save_checklist` for a day already saved is a replace, not a
merge: after two saves the table holds exactly one row for that day, and it
is the row of the most recent data. -/
theorem C4_save_replace (db : DB) (day : String) (d1 d2 : List (String × PyVal)) :
    ((save_checklist (save_checklist db day d1) day d2).filter
        (fun r => r.date == day)) = [toRow day d2] ∧
    dbGet (save_checklist (save_checklist db day d1) day d2) day =
      Option.some (toRow day d2) :=
  ⟨filter_save _ day d2, dbGet_save _ day d2⟩

theorem afterTraining_skip (ml : String → Option String) (s : Sess) (label : String)
    (v : String) (hml : ml s.day = Option.some v) :
    afterTraining ml s label =
      .next { s with state := .CAFFEINE_CUTOFF,
                     data := listSet s.data "last_meal_time" (.str v) }
        ⟨label ++ " — got it.\n\nLast meal already logged at " ++ v ++
           ".\n\nWhat time was your last caffeine? (HH:MM or type 'skip')",
         Option.some SKIP_KB⟩ := by
  unfold afterTraining
  rw [hml]

/-- Claim C5: when the meal-time side log holds `v` for the session's day,
every resolving input at Training (any non-Other choice, or free text)
stores `last_meal_time = v` and moves to CaffeineCutoff; and no step of any
invariant-respecting session with the log set ever enters LastMealTime. -/
theorem C5_skip_ahead (ml : String → Option String) (v : String) (s : Sess)
    (d t : String) (hs : s.state = .TRAINING) (hml : ml s.day = Option.some v)
    (hd : d = "none" ∨ d = "strength" ∨ d = "cardio" ∨ d = "zone2" ∨ d = "sport") :
    (∃ s' m, step ml s (.callback d) = .next s' m ∧ s'.state = .CAFFEINE_CUTOFF ∧
       listGet s'.data "last_meal_time" = Option.some (.str v)) ∧
    (∃ s' m, step ml s (.message t) = .next s' m ∧ s'.state = .CAFFEINE_CUTOFF ∧
       listGet s'.data "last_meal_time" = Option.some (.str v)) ∧
    (∀ s0 i s' m, ml s0.day = Option.some v → SessInv s0 →
       step ml s0 i = .next s' m → s'.state ≠ .LAST_MEAL_TIME) := by
  obtain ⟨st, dt, pd, dy⟩ := s
  dsimp only at hs hml
  subst hs
  refine ⟨?_, ?_, ?_⟩
  · rcases hd with rfl | hd'
    · have hm1 := afterTraining_skip ml
        ⟨.TRAINING, listSet dt "training_type" PyVal.none, pd, dy⟩ "No training" v hml
      have hstep : step ml ⟨.TRAINING, dt, pd, dy⟩ (.callback "none") =
          afterTraining ml
            ⟨.TRAINING, listSet dt "training_type" PyVal.none, pd, dy⟩ "No training" := by
        unfold step
        dsimp only
        unfold training
        rw [if_pos rfl]
      rw [hm1] at hstep
      exact ⟨_, _, hstep, rfl, listGet_listSet_self _ _ _⟩
    · have hd1 : d ≠ "none" := by rcases hd' with rfl | rfl | rfl | rfl <;> decide
      have hd2 : d ≠ "other" := by rcases hd' with rfl | rfl | rfl | rfl <;> decide
      have hm1 := afterTraining_skip ml
        ⟨.TRAINING, listSet dt "training_type" (.str d), pd, dy⟩ (pyCapitalize d) v hml
      have hstep : step ml ⟨.TRAINING, dt, pd, dy⟩ (.callback d) =
          afterTraining ml
            ⟨.TRAINING, listSet dt "training_type" (.str d), pd, dy⟩ (pyCapitalize d) := by
        unfold step
        dsimp only
        unfold training
        rw [if_neg hd1, if_neg hd2]
      rw [hm1] at hstep
      exact ⟨_, _, hstep, rfl, listGet_listSet_self _ _ _⟩
  · have hm1 := afterTraining_skip ml
      ⟨.TRAINING, listSet dt "training_type" (.str (pyStrip t)), pd, dy⟩ (pyStrip t) v hml
    exact ⟨_, _, hm1, rfl, listGet_listSet_self _ _ _⟩
  · intro s0 i s' m hml0 hInv0 h
    exact step_not_into_lastmeal ml v s0 i hml0 hInv0 s' m h

/-- Witness for C5: side log holding "19:45", Training resolved by the
Strength button and by free text. -/
theorem C5_skip_ahead_witness :
    (sessAfter [.callback "0", .callback "0", .callback "0", .callback "0",
       .callback "0", .callback "0", .callback "0"]).state = ChatState.TRAINING ∧
    (fun _ : String => Option.some "19:45")
        (sessAfter [.callback "0", .callback "0", .callback "0", .callback "0",
           .callback "0", .callback "0", .callback "0"]).day = Option.some "19:45" ∧
    ((∃ s' m, step (fun _ => Option.some "19:45")
         (sessAfter [.callback "0", .callback "0", .callback "0", .callback "0",
            .callback "0", .callback "0", .callback "0"]) (.callback "strength") =
           .next s' m ∧
       s'.state = ChatState.CAFFEINE_CUTOFF ∧
       listGet s'.data "last_meal_time" = Option.some (.str "19:45")) ∧
     (∃ s' m, step (fun _ => Option.some "19:45")
         (sessAfter [.callback "0", .callback "0", .callback "0", .callback "0",
            .callback "0", .callback "0", .callback "0"]) (.message "climbing") =
           .next s' m ∧
       s'.state = ChatState.CAFFEINE_CUTOFF ∧
       listGet s'.data "last_meal_time" = Option.some (.str "19:45")) ∧
     (∀ s0 i s' m, (fun _ : String => Option.some "19:45") s0.day = Option.some "19:45" →
        SessInv s0 →
        step (fun _ => Option.some "19:45") s0 i = .next s' m →
        s'.state ≠ ChatState.LAST_MEAL_TIME)) :=
  ⟨rfl, rfl,
   C5_skip_ahead (fun _ => Option.some "19:45") "19:45" _ "strength" "climbing" rfl rfl
     (Or.inr (Or.inl rfl))⟩

/-- Claim C6 (code bug): after Supplements the engine shows `YES_NO_KB` —
which offers an `Other` button — at the Meditation state, and tapping that
offered button makes `meditation` crash in `int("other")`. -/
theorem C6_meditation_other_crash :
    (nextMsg (step ml0 sessSupp (.callback "none"))).map Msg.kb =
      Option.some (Option.some YES_NO_KB) ∧
    (nextSess (step ml0 sessSupp (.callback "none"))).map Sess.state =
      Option.some ChatState.MEDITATION ∧
    kbHas YES_NO_KB "other" = true ∧
    ((nextSess (step ml0 sessSupp (.callback "none"))).map
        (fun s => step ml0 s (.callback "other"))) =
      Option.some StepRes.crash :=
  ⟨rfl, rfl, rfl, rfl⟩

/-- Claim C7: at Meditation, No stores `meditation = 0` and
`meditation_minutes = null` and performs the terminal save in the same
step (state 14 is never entered); Yes moves to MeditationMinutes. -/
theorem C7_meditation_branch (ml : String → Option String) (s : Sess)
    (hs : s.state = .MEDITATION) :
    (∃ r msgs, step ml s (.callback "0") = .save r msgs ∧
       listGet r "meditation" = Option.some (.int 0) ∧
       listGet r "meditation_minutes" = Option.some PyVal.none) ∧
    (∃ s' m, step ml s (.callback "1") = .next s' m ∧
       s'.state = .MEDITATION_MINUTES ∧
       listGet s'.data "meditation" = Option.some (.int 1)) := by
  obtain ⟨st, dt, pd, dy⟩ := s
  dsimp only at hs
  subst hs
  constructor
  · refine ⟨_, _, rfl, ?_, listGet_listSet_self _ _ _⟩
    rw [listGet_listSet_ne _ _ _ _ (by decide : "meditation_minutes" ≠ "meditation")]
    exact listGet_listSet_self _ _ _
  · exact ⟨_, _, rfl, rfl, listGet_listSet_self _ _ _⟩

/-- Witness for C7 at a reachable Meditation session. -/
theorem C7_meditation_branch_witness :
    sessMed.state = ChatState.MEDITATION ∧
    ((∃ r msgs, step ml0 sessMed (.callback "0") = .save r msgs ∧
        listGet r "meditation" = Option.some (.int 0) ∧
        listGet r "meditation_minutes" = Option.some PyVal.none) ∧
     (∃ s' m, step ml0 sessMed (.callback "1") = .next s' m ∧
        s'.state = ChatState.MEDITATION_MINUTES ∧
        listGet s'.data "meditation" = Option.some (.int 1))) :=
  ⟨rfl, C7_meditation_branch ml0 sessMed rfl⟩

/-- Claim C8: at LastMealTime and CaffeineCutoff, the Skip button stores
null, and any stripped non-empty free text is stored verbatim with no
validation; either way the machine advances to the next state. -/
theorem C8_meal_and_caffeine (ml : String → Option String) (s1 s2 : Sess) (t : String)
    (hs1 : s1.state = .LAST_MEAL_TIME) (hs2 : s2.state = .CAFFEINE_CUTOFF)
    (ht : (pyStrip t) = t) (ht0 : t ≠ "") :
    (∃ s' m, step ml s1 (.callback "skip") = .next s' m ∧
       s'.state = .CAFFEINE_CUTOFF ∧
       listGet s'.data "last_meal_time" = Option.some PyVal.none) ∧
    (∃ s' m, step ml s1 (.message t) = .next s' m ∧
       s'.state = .CAFFEINE_CUTOFF ∧
       listGet s'.data "last_meal_time" = Option.some (.str t)) ∧
    (∃ s' m, step ml s2 (.callback "skip") = .next s' m ∧
       s'.state = .HYDRATION ∧
       listGet s'.data "caffeine_cutoff" = Option.some PyVal.none) ∧
    (∃ s' m, step ml s2 (.message t) = .next s' m ∧
       s'.state = .HYDRATION ∧
       listGet s'.data "caffeine_cutoff" = Option.some (.str t)) := by
  obtain ⟨st1, dt1, pd1, dy1⟩ := s1
  obtain ⟨st2, dt2, pd2, dy2⟩ := s2
  dsimp only at hs1 hs2
  subst hs1
  subst hs2
  refine ⟨⟨_, _, rfl, rfl, listGet_listSet_self _ _ _⟩, ?_,
          ⟨_, _, rfl, rfl, listGet_listSet_self _ _ _⟩, ?_⟩
  · refine ⟨_, _, rfl, rfl, ?_⟩
    rw [ht]
    exact listGet_listSet_self _ _ _
  · refine ⟨_, _, rfl, rfl, ?_⟩
    rw [ht]
    exact listGet_listSet_self _ _ _

/-- Witness for C8 at reachable sessions, text "22:30". -/
theorem C8_meal_and_caffeine_witness :
    sessLM.state = ChatState.LAST_MEAL_TIME ∧
    sessCC.state = ChatState.CAFFEINE_CUTOFF ∧
    pyStrip "22:30" = "22:30" ∧ "22:30" ≠ "" ∧
    ((∃ s' m, step ml0 sessLM (.callback "skip") = .next s' m ∧
        s'.state = ChatState.CAFFEINE_CUTOFF ∧
        listGet s'.data "last_meal_time" = Option.some PyVal.none) ∧
     (∃ s' m, step ml0 sessLM (.message "22:30") = .next s' m ∧
        s'.state = ChatState.CAFFEINE_CUTOFF ∧
        listGet s'.data "last_meal_time" = Option.some (.str "22:30")) ∧
     (∃ s' m, step ml0 sessCC (.callback "skip") = .next s' m ∧
        s'.state = ChatState.HYDRATION ∧
        listGet s'.data "caffeine_cutoff" = Option.some PyVal.none) ∧
     (∃ s' m, step ml0 sessCC (.message "22:30") = .next s' m ∧
        s'.state = ChatState.HYDRATION ∧
        listGet s'.data "caffeine_cutoff" = Option.some (.str "22:30"))) :=
  ⟨rfl, rfl, rfl, by decide,
   C8_meal_and_caffeine ml0 sessLM sessCC "22:30" rfl rfl rfl (by decide)⟩

/-- Claim C9: `/cancel` from any session state ends the conversation with
only an acknowledgment and touches no store: if no row existed for a day,
none exists afterwards, and the store is unchanged. -/
theorem C9_cancel (ml : String → Option String) (db : DB) (s : Sess) (day : String)
    (rest : List Input) (habs : dbGet db day = Option.none) :
    step ml s .cancel = .fin cancelMsg ∧
    run ml db s (.cancel :: rest) = (db, .cancelled) ∧
    dbGet (run ml db s (.cancel :: rest)).1 day = Option.none :=
  ⟨rfl, rfl, habs⟩

/-- Witness for C9 on an empty store. -/
theorem C9_cancel_witness :
    dbGet [] "2025-06-01" = Option.none ∧
    (step ml0 sessMed .cancel = .fin cancelMsg ∧
     run ml0 [] sessMed [.cancel] = ([], .cancelled) ∧
     dbGet (run ml0 [] sessMed [.cancel]).1 "2025-06-01" = Option.none) :=
  ⟨rfl, C9_cancel ml0 [] sessMed "2025-06-01" [] rfl⟩

/-- Claim C10: a completed run that never answers a boolean question via
`Other` leaves no `other_notes` key, so `save_checklist` binds NULL for the
`other_notes` column; in general the column is NULL exactly when the
mapping is absent or falsy (empty). -/
theorem C10_notes_column_null (ml : String → Option String) (day : String)
    (inps : List Input) (db db' : DB) (r : List (String × PyVal))
    (hno : noOtherRun ml (startSess day) inps = true)
    (hrun : run ml db (startSess day) inps = (db', .saved r)) :
    listGet r "other_notes" = Option.none ∧
    (toRow day r).other_notes = PyVal.none ∧
    (∀ d0 day0, (toRow day0 d0).other_notes = PyVal.none ↔
       pyTruthy (pyGet d0 "other_notes") = false) := by
  have h1 : listGet r "other_notes" = Option.none :=
    run_notes ml inps db _ (NInv_start day) hno db' r hrun
  refine ⟨h1, ?_, ?_⟩
  · show (if pyTruthy (pyGet r "other_notes") then pyGet r "other_notes" else PyVal.none) =
      PyVal.none
    unfold pyGet
    rw [h1]
    rfl
  · intro d0 day0
    show (if pyTruthy (pyGet d0 "other_notes") then pyGet d0 "other_notes" else PyVal.none) =
        PyVal.none ↔ pyTruthy (pyGet d0 "other_notes") = false
    by_cases hb : pyTruthy (pyGet d0 "other_notes")
    · rw [if_pos hb]
      constructor
      · intro hEq
        rw [hEq] at hb
        exact absurd hb (by decide)
      · intro hEq
        rw [hb] at hEq
        exact absurd hEq (by decide)
    · rw [if_neg hb]
      simp [hb]

/-- Witness for C10: the demo scenario answers no question via Other. -/
theorem C10_notes_column_null_witness :
    noOtherRun ml0 (startSess "2025-06-01") demoFull = true ∧
    ∃ db' r, run ml0 [] (startSess "2025-06-01") demoFull = (db', .saved r) ∧
      (listGet r "other_notes" = Option.none ∧
       (toRow "2025-06-01" r).other_notes = PyVal.none ∧
       (∀ d0 day0, (toRow day0 d0).other_notes = PyVal.none ↔
          pyTruthy (pyGet d0 "other_notes") = false)) := by
  refine ⟨rfl, _, _, rfl, ?_⟩
  exact C10_notes_column_null ml0 "2025-06-01" demoFull [] _ _ rfl rfl
